import Mathlib

/-!
Verification of the page-layout engine of the pdf-invoice-merger tool.

The development shallowly embeds the layout logic of the three merger
variants:

* `DualLayout`  — `src/dual_layout_merger.py` (`DualLayoutMerger`)
* `PdfMerger`   — `src/pdf_merger.py` (`PDFInvoiceMerger`)
* `Grid`        — `src/pdf_to_image_merger.py` (`PDFToImageMerger`)

Python float arithmetic is idealised over `ℚ`; Python `int()` truncation is
`pyInt`; fallible Python code is embedded in `Except`/`Option`.  Images are
represented by their pixel dimensions, the only attribute the layout logic
inspects.
-/

/-- Python `int()` applied to a (nonnegative or negative) rational:
truncation toward zero, so `int(2.7) = 2` and `int(-2.7) = -2`. -/
def pyInt (q : ℚ) : ℤ := if 0 ≤ q then ⌊q⌋ else ⌈q⌉

/-- Errors a fit computation can signal.  `zeroDivision` models Python's
`ZeroDivisionError` (raised by `max_width / original_width` when a native
dimension is zero); `valueError` models PIL's
`ValueError: height and width must be > 0`, raised by the final
`img.resize` whenever a computed dimension is less than 1;
`invalidGeometry` is the error named by the design document — no code
path produces it. -/
inductive PyError where
  | zeroDivision
  | invalidGeometry
  | valueError
deriving DecidableEq, Repr

namespace DualLayout

/-- `DualLayoutMerger.resize_image_to_fit` (src/dual_layout_merger.py:147-177).
With `maintain_aspect`: `scale_ratio = min(max_width/original_width,
max_height/original_height)`, `new_width = int(original_width*scale_ratio)`,
`new_height = int(original_height*scale_ratio)`; the divisions raise
`ZeroDivisionError` when a native dimension is zero, and the final
`img.resize((new_width, new_height))` raises `ValueError` when either
computed dimension is less than 1.  Without `maintain_aspect` the target
box is truncated to integers and handed to the same `img.resize`. -/
def resize_image_to_fit (original_width original_height : ℕ)
    (max_width max_height : ℚ) (maintain_aspect : Bool) :
    Except PyError (ℤ × ℤ) :=
  if maintain_aspect then
    if original_width = 0 ∨ original_height = 0 then .error .zeroDivision
    else
      if pyInt (original_width *
            min (max_width / original_width) (max_height / original_height)) < 1 ∨
          pyInt (original_height *
            min (max_width / original_width) (max_height / original_height)) < 1 then
        .error .valueError
      else
        .ok (pyInt (original_width *
              min (max_width / original_width) (max_height / original_height)),
             pyInt (original_height *
              min (max_width / original_width) (max_height / original_height)))
  else
    if pyInt max_width < 1 ∨ pyInt max_height < 1 then .error .valueError
    else .ok (pyInt max_width, pyInt max_height)

end DualLayout

namespace PdfMerger

/-- `PDFInvoiceMerger.resize_image_to_fit` (src/pdf_merger.py:93-106):
`scale = min(max_width/img_width, max_height/img_height)`,
`new_width = int(img_width*scale)`, `new_height = int(img_height*scale)`;
the divisions raise `ZeroDivisionError` for a zero native dimension and
the final `img.resize((new_width, new_height))` raises `ValueError` when
either computed dimension is less than 1. -/
def resize_image_to_fit (img_width img_height : ℕ)
    (max_width max_height : ℚ) : Except PyError (ℤ × ℤ) :=
  if img_width = 0 ∨ img_height = 0 then .error .zeroDivision
  else
    if pyInt (img_width * min (max_width / img_width) (max_height / img_height)) < 1 ∨
        pyInt (img_height * min (max_width / img_width) (max_height / img_height)) < 1 then
      .error .valueError
    else
      .ok (pyInt (img_width * min (max_width / img_width) (max_height / img_height)),
           pyInt (img_height * min (max_width / img_width) (max_height / img_height)))

end PdfMerger

namespace Grid

/-- `PDFToImageMerger.resize_image_proportionally`
(src/pdf_to_image_merger.py:101-122): `scale_ratio =
min(target_width/image.width, target_height/image.height)`,
`new_width = int(image.width*scale_ratio)`,
`new_height = int(image.height*scale_ratio)`; the divisions raise
`ZeroDivisionError` for a zero native dimension and the final
`image.resize((new_width, new_height))` raises `ValueError` when either
computed dimension is less than 1. -/
def resize_image_proportionally (image_width image_height : ℕ)
    (target_width target_height : ℚ) : Except PyError (ℤ × ℤ) :=
  if image_width = 0 ∨ image_height = 0 then .error .zeroDivision
  else
    if pyInt (image_width * min (target_width / image_width) (target_height / image_height)) < 1 ∨
        pyInt (image_height * min (target_width / image_width) (target_height / image_height)) < 1 then
      .error .valueError
    else
      .ok (pyInt (image_width * min (target_width / image_width) (target_height / image_height)),
           pyInt (image_height * min (target_width / image_width) (target_height / image_height)))

end Grid

namespace DualLayout

/-- Position of the upper image on a dual-layout page
(src/dual_layout_merger.py:241-242):
`x_1 = margin + (cell_width - img_width)/2`,
`y_1 = margin + cell_height + gap + (cell_height - img_height)/2`. -/
def upper_position (margin gap cell_width cell_height : ℚ)
    (img_width img_height : ℤ) : ℚ × ℚ :=
  (margin + (cell_width - img_width) / 2,
   margin + cell_height + gap + (cell_height - img_height) / 2)

/-- Position of the lower image on a dual-layout page
(src/dual_layout_merger.py:266-267):
`x_2 = margin + (cell_width - img_width)/2`,
`y_2 = margin + (cell_height - img_height)/2`. -/
def lower_position (margin cell_width cell_height : ℚ)
    (img_width img_height : ℤ) : ℚ × ℚ :=
  (margin + (cell_width - img_width) / 2,
   margin + (cell_height - img_height) / 2)

end DualLayout

namespace DualLayout

/-- Page selection of `DualLayoutMerger.pdf_to_image`
(src/dual_layout_merger.py:106-115): `if page_num >= len(doc): page_num = 0`,
then `doc[page_num]` is rendered.  Returns the index of the page actually
rendered, or `none` when indexing raises (only possible for a zero-page
document, where the handler returns `None`). -/
def pdf_to_image_page (page_count page_num : ℕ) : Option ℕ :=
  let p := if page_num ≥ page_count then 0 else page_num
  if p < page_count then some p else none

end DualLayout

/-! ### Generic facts about the shared fit computation -/

theorem pyInt_cast_le {q : ℚ} (hq : 0 ≤ q) : (pyInt q : ℚ) ≤ q := by
  unfold pyInt
  rw [if_pos hq]
  exact_mod_cast Int.floor_le q

theorem pyInt_nonneg {q : ℚ} (hq : 0 ≤ q) : 0 ≤ pyInt q := by
  unfold pyInt
  rw [if_pos hq]
  exact Int.floor_nonneg.mpr hq

/-- The common scale factor of all three fit computations. -/
def fitScale (w h : ℕ) (cW cH : ℚ) : ℚ := min (cW / w) (cH / h)

theorem fitScale_pos {w h : ℕ} {cW cH : ℚ} (hw : 0 < w) (hh : 0 < h)
    (hcW : 0 < cW) (hcH : 0 < cH) : 0 < fitScale w h cW cH := by
  have hw' : (0 : ℚ) < w := by exact_mod_cast hw
  have hh' : (0 : ℚ) < h := by exact_mod_cast hh
  exact lt_min (div_pos hcW hw') (div_pos hcH hh')

theorem fitScale_mul_w_le {w h : ℕ} {cW cH : ℚ} (hw : 0 < w) (hh : 0 < h) :
    (w : ℚ) * fitScale w h cW cH ≤ cW := by
  have hw' : (0 : ℚ) < w := by exact_mod_cast hw
  calc (w : ℚ) * fitScale w h cW cH ≤ (w : ℚ) * (cW / w) := by
        exact mul_le_mul_of_nonneg_left (min_le_left _ _) (le_of_lt hw')
    _ = cW := by field_simp

theorem fitScale_mul_h_le {w h : ℕ} {cW cH : ℚ} (hw : 0 < w) (hh : 0 < h) :
    (h : ℚ) * fitScale w h cW cH ≤ cH := by
  have hh' : (0 : ℚ) < h := by exact_mod_cast hh
  calc (h : ℚ) * fitScale w h cW cH ≤ (h : ℚ) * (cH / h) := by
        exact mul_le_mul_of_nonneg_left (min_le_right _ _) (le_of_lt hh')
    _ = cH := by field_simp

theorem pyInt_nonpos {q : ℚ} (hq : q ≤ 0) : pyInt q ≤ 0 := by
  unfold pyInt
  by_cases h0 : 0 ≤ q
  · rw [if_pos h0]
    exact Int.floor_nonpos hq
  · rw [if_neg h0]
    exact Int.ceil_le.mpr (by exact_mod_cast hq)

theorem nonneg_of_one_le_pyInt {q : ℚ} (h1 : 1 ≤ pyInt q) : 0 ≤ q := by
  by_contra hneg
  push_neg at hneg
  have := pyInt_nonpos (le_of_lt hneg)
  omega

/-- The fit of a `w × h` image into the given box completes: positive
native dimensions and both truncated scaled dimensions at least 1
(otherwise the fit raises `ZeroDivisionError` or `ValueError`). -/
def fits (w h : ℕ) (cW cH : ℚ) : Prop :=
  0 < w ∧ 0 < h ∧ 1 ≤ pyInt (w * fitScale w h cW cH) ∧
    1 ≤ pyInt (h * fitScale w h cW cH)

instance (w h : ℕ) (cW cH : ℚ) : Decidable (fits w h cW cH) := by
  unfold fits
  exact inferInstance

theorem fits_elim {w h : ℕ} {cW cH : ℚ} (hf : fits w h cW cH) :
    0 < w ∧ 0 < h ∧ 1 ≤ pyInt (w * fitScale w h cW cH) ∧
      1 ≤ pyInt (h * fitScale w h cW cH) := hf

theorem fits_intro {w h : ℕ} {cW cH : ℚ} (hw : 0 < w) (hh : 0 < h)
    (h1 : 1 ≤ pyInt (w * fitScale w h cW cH))
    (h2 : 1 ≤ pyInt (h * fitScale w h cW cH)) : fits w h cW cH :=
  ⟨hw, hh, h1, h2⟩

theorem dual_resize_eq_scaled {w h : ℕ} (cW cH : ℚ)
    (hw : 0 < w) (hh : 0 < h)
    (h1 : 1 ≤ pyInt (w * fitScale w h cW cH))
    (h2 : 1 ≤ pyInt (h * fitScale w h cW cH)) :
    DualLayout.resize_image_to_fit w h cW cH true =
      .ok (pyInt (w * fitScale w h cW cH), pyInt (h * fitScale w h cW cH)) := by
  have h1' : 1 ≤ pyInt ((w : ℚ) * min (cW / w) (cH / h)) := h1
  have h2' : 1 ≤ pyInt ((h : ℚ) * min (cW / w) (cH / h)) := h2
  unfold DualLayout.resize_image_to_fit
  rw [if_pos rfl, if_neg (show ¬(w = 0 ∨ h = 0) by omega),
      if_neg (show ¬(pyInt ((w : ℚ) * min (cW / w) (cH / h)) < 1 ∨
        pyInt ((h : ℚ) * min (cW / w) (cH / h)) < 1) by omega)]
  rfl

theorem pdfm_resize_eq_scaled {w h : ℕ} (cW cH : ℚ)
    (hw : 0 < w) (hh : 0 < h)
    (h1 : 1 ≤ pyInt (w * fitScale w h cW cH))
    (h2 : 1 ≤ pyInt (h * fitScale w h cW cH)) :
    PdfMerger.resize_image_to_fit w h cW cH =
      .ok (pyInt (w * fitScale w h cW cH), pyInt (h * fitScale w h cW cH)) := by
  have h1' : 1 ≤ pyInt ((w : ℚ) * min (cW / w) (cH / h)) := h1
  have h2' : 1 ≤ pyInt ((h : ℚ) * min (cW / w) (cH / h)) := h2
  unfold PdfMerger.resize_image_to_fit
  rw [if_neg (show ¬(w = 0 ∨ h = 0) by omega),
      if_neg (show ¬(pyInt ((w : ℚ) * min (cW / w) (cH / h)) < 1 ∨
        pyInt ((h : ℚ) * min (cW / w) (cH / h)) < 1) by omega)]
  rfl

theorem grid_resize_eq_scaled {w h : ℕ} (cW cH : ℚ)
    (hw : 0 < w) (hh : 0 < h)
    (h1 : 1 ≤ pyInt (w * fitScale w h cW cH))
    (h2 : 1 ≤ pyInt (h * fitScale w h cW cH)) :
    Grid.resize_image_proportionally w h cW cH =
      .ok (pyInt (w * fitScale w h cW cH), pyInt (h * fitScale w h cW cH)) := by
  have h1' : 1 ≤ pyInt ((w : ℚ) * min (cW / w) (cH / h)) := h1
  have h2' : 1 ≤ pyInt ((h : ℚ) * min (cW / w) (cH / h)) := h2
  unfold Grid.resize_image_proportionally
  rw [if_neg (show ¬(w = 0 ∨ h = 0) by omega),
      if_neg (show ¬(pyInt ((w : ℚ) * min (cW / w) (cH / h)) < 1 ∨
        pyInt ((h : ℚ) * min (cW / w) (cH / h)) < 1) by omega)]
  rfl

theorem dual_resize_eq_error {w h : ℕ} (cW cH : ℚ)
    (hw : 0 < w) (hh : 0 < h)
    (hlt : pyInt (w * fitScale w h cW cH) < 1 ∨
      pyInt (h * fitScale w h cW cH) < 1) :
    DualLayout.resize_image_to_fit w h cW cH true = .error .valueError := by
  have hlt' : pyInt ((w : ℚ) * min (cW / w) (cH / h)) < 1 ∨
      pyInt ((h : ℚ) * min (cW / w) (cH / h)) < 1 := hlt
  unfold DualLayout.resize_image_to_fit
  rw [if_pos rfl, if_neg (show ¬(w = 0 ∨ h = 0) by omega), if_pos hlt']

theorem pdfm_resize_eq_error {w h : ℕ} (cW cH : ℚ)
    (hw : 0 < w) (hh : 0 < h)
    (hlt : pyInt (w * fitScale w h cW cH) < 1 ∨
      pyInt (h * fitScale w h cW cH) < 1) :
    PdfMerger.resize_image_to_fit w h cW cH = .error .valueError := by
  have hlt' : pyInt ((w : ℚ) * min (cW / w) (cH / h)) < 1 ∨
      pyInt ((h : ℚ) * min (cW / w) (cH / h)) < 1 := hlt
  unfold PdfMerger.resize_image_to_fit
  rw [if_neg (show ¬(w = 0 ∨ h = 0) by omega), if_pos hlt']

theorem grid_resize_eq_error {w h : ℕ} (cW cH : ℚ)
    (hw : 0 < w) (hh : 0 < h)
    (hlt : pyInt (w * fitScale w h cW cH) < 1 ∨
      pyInt (h * fitScale w h cW cH) < 1) :
    Grid.resize_image_proportionally w h cW cH = .error .valueError := by
  have hlt' : pyInt ((w : ℚ) * min (cW / w) (cH / h)) < 1 ∨
      pyInt ((h : ℚ) * min (cW / w) (cH / h)) < 1 := hlt
  unfold Grid.resize_image_proportionally
  rw [if_neg (show ¬(w = 0 ∨ h = 0) by omega), if_pos hlt']

theorem dual_resize_ok_inv {w h : ℕ} {cW cH : ℚ} {sw sh : ℤ}
    (hok : DualLayout.resize_image_to_fit w h cW cH true = .ok (sw, sh)) :
    0 < w ∧ 0 < h ∧ sw = pyInt (w * fitScale w h cW cH) ∧
      sh = pyInt (h * fitScale w h cW cH) ∧ 1 ≤ sw ∧ 1 ≤ sh := by
  unfold DualLayout.resize_image_to_fit at hok
  rw [if_pos rfl] at hok
  by_cases hz : w = 0 ∨ h = 0
  · rw [if_pos hz] at hok
    exact absurd hok (by simp)
  · rw [if_neg hz] at hok
    by_cases hlt : pyInt ((w : ℚ) * min (cW / w) (cH / h)) < 1 ∨
        pyInt ((h : ℚ) * min (cW / w) (cH / h)) < 1
    · rw [if_pos hlt] at hok
      exact absurd hok (by simp)
    · rw [if_neg hlt] at hok
      have hp := Except.ok.inj hok
      rw [Prod.mk.injEq] at hp
      obtain ⟨hsw, hsh⟩ := hp
      push_neg at hlt
      obtain ⟨hl1, hl2⟩ := hlt
      exact ⟨by omega, by omega, hsw.symm, hsh.symm, by omega, by omega⟩

theorem pdfm_resize_ok_inv {w h : ℕ} {cW cH : ℚ} {sw sh : ℤ}
    (hok : PdfMerger.resize_image_to_fit w h cW cH = .ok (sw, sh)) :
    0 < w ∧ 0 < h ∧ sw = pyInt (w * fitScale w h cW cH) ∧
      sh = pyInt (h * fitScale w h cW cH) ∧ 1 ≤ sw ∧ 1 ≤ sh := by
  unfold PdfMerger.resize_image_to_fit at hok
  by_cases hz : w = 0 ∨ h = 0
  · rw [if_pos hz] at hok
    exact absurd hok (by simp)
  · rw [if_neg hz] at hok
    by_cases hlt : pyInt ((w : ℚ) * min (cW / w) (cH / h)) < 1 ∨
        pyInt ((h : ℚ) * min (cW / w) (cH / h)) < 1
    · rw [if_pos hlt] at hok
      exact absurd hok (by simp)
    · rw [if_neg hlt] at hok
      have hp := Except.ok.inj hok
      rw [Prod.mk.injEq] at hp
      obtain ⟨hsw, hsh⟩ := hp
      push_neg at hlt
      obtain ⟨hl1, hl2⟩ := hlt
      exact ⟨by omega, by omega, hsw.symm, hsh.symm, by omega, by omega⟩

theorem grid_resize_ok_inv {w h : ℕ} {cW cH : ℚ} {sw sh : ℤ}
    (hok : Grid.resize_image_proportionally w h cW cH = .ok (sw, sh)) :
    0 < w ∧ 0 < h ∧ sw = pyInt (w * fitScale w h cW cH) ∧
      sh = pyInt (h * fitScale w h cW cH) ∧ 1 ≤ sw ∧ 1 ≤ sh := by
  unfold Grid.resize_image_proportionally at hok
  by_cases hz : w = 0 ∨ h = 0
  · rw [if_pos hz] at hok
    exact absurd hok (by simp)
  · rw [if_neg hz] at hok
    by_cases hlt : pyInt ((w : ℚ) * min (cW / w) (cH / h)) < 1 ∨
        pyInt ((h : ℚ) * min (cW / w) (cH / h)) < 1
    · rw [if_pos hlt] at hok
      exact absurd hok (by simp)
    · rw [if_neg hlt] at hok
      have hp := Except.ok.inj hok
      rw [Prod.mk.injEq] at hp
      obtain ⟨hsw, hsh⟩ := hp
      push_neg at hlt
      obtain ⟨hl1, hl2⟩ := hlt
      exact ⟨by omega, by omega, hsw.symm, hsh.symm, by omega, by omega⟩

/-- C1 (corrected): whenever a fit computation returns scaled dimensions
they never exceed the cell on either axis, and all three computations
(`DualLayoutMerger.resize_image_to_fit`,
`PDFInvoiceMerger.resize_image_to_fit`,
`PDFToImageMerger.resize_image_proportionally`) agree; but for strictly
positive inputs the fit succeeds only when both truncated dimensions are
at least 1 — otherwise the final `img.resize` raises `ValueError` (all
three alike), so the original unconditional success claim fails (see the
counterexample). -/
theorem C1_fit_never_exceeds_cell (w h : ℕ) (cW cH : ℚ)
    (hw : 0 < w) (hh : 0 < h) (hcW : 0 < cW) (hcH : 0 < cH) :
    (∀ sw sh : ℤ,
      DualLayout.resize_image_to_fit w h cW cH true = .ok (sw, sh) →
      PdfMerger.resize_image_to_fit w h cW cH = .ok (sw, sh) ∧
      Grid.resize_image_proportionally w h cW cH = .ok (sw, sh) ∧
      1 ≤ sw ∧ 1 ≤ sh ∧ (sw : ℚ) ≤ cW ∧ (sh : ℚ) ≤ cH) ∧
    (1 ≤ pyInt (w * fitScale w h cW cH) →
      1 ≤ pyInt (h * fitScale w h cW cH) →
      ∃ sw sh : ℤ,
        DualLayout.resize_image_to_fit w h cW cH true = .ok (sw, sh)) ∧
    ((pyInt (w * fitScale w h cW cH) < 1 ∨
        pyInt (h * fitScale w h cW cH) < 1) →
      DualLayout.resize_image_to_fit w h cW cH true = .error .valueError ∧
      PdfMerger.resize_image_to_fit w h cW cH = .error .valueError ∧
      Grid.resize_image_proportionally w h cW cH = .error .valueError) := by
  refine ⟨?_, ?_, ?_⟩
  · intro sw sh hok
    obtain ⟨_, _, hsw, hsh, h1, h2⟩ := dual_resize_ok_inv hok
    have h1' : 1 ≤ pyInt (w * fitScale w h cW cH) := by omega
    have h2' : 1 ≤ pyInt (h * fitScale w h cW cH) := by omega
    refine ⟨?_, ?_, h1, h2, ?_, ?_⟩
    · rw [pdfm_resize_eq_scaled cW cH hw hh h1' h2', hsw, hsh]
    · rw [grid_resize_eq_scaled cW cH hw hh h1' h2', hsw, hsh]
    · rw [hsw]
      have hq : (0 : ℚ) ≤ (w : ℚ) * fitScale w h cW cH :=
        nonneg_of_one_le_pyInt h1'
      exact le_trans (pyInt_cast_le hq) (fitScale_mul_w_le hw hh)
    · rw [hsh]
      have hq : (0 : ℚ) ≤ (h : ℚ) * fitScale w h cW cH :=
        nonneg_of_one_le_pyInt h2'
      exact le_trans (pyInt_cast_le hq) (fitScale_mul_h_le hw hh)
  · intro h1 h2
    exact ⟨pyInt (w * fitScale w h cW cH), pyInt (h * fitScale w h cW cH),
      dual_resize_eq_scaled cW cH hw hh h1 h2⟩
  · intro hlt
    exact ⟨dual_resize_eq_error cW cH hw hh hlt,
      pdfm_resize_eq_error cW cH hw hh hlt,
      grid_resize_eq_error cW cH hw hh hlt⟩

/-- C1 counterexample: the strictly positive input `100 × 1` into a
`50 × 50` cell scales to height `int(0.5) = 0`, so all three fit
computations raise `ValueError` and return no scaled dimensions at all —
the claim's unconditional "returns scaled dimensions" is false. -/
theorem C1_counterexample :
    DualLayout.resize_image_to_fit 100 1 50 50 true = .error .valueError ∧
    PdfMerger.resize_image_to_fit 100 1 50 50 = .error .valueError ∧
    Grid.resize_image_proportionally 100 1 50 50 = .error .valueError ∧
    ¬∃ sw sh : ℤ,
      DualLayout.resize_image_to_fit 100 1 50 50 true = .ok (sw, sh) := by
  have h1 : DualLayout.resize_image_to_fit 100 1 50 50 true =
      .error .valueError := by
    norm_num [DualLayout.resize_image_to_fit, pyInt, min_def]
  have h2 : PdfMerger.resize_image_to_fit 100 1 50 50 = .error .valueError := by
    norm_num [PdfMerger.resize_image_to_fit, pyInt, min_def]
  have h3 : Grid.resize_image_proportionally 100 1 50 50 = .error .valueError := by
    norm_num [Grid.resize_image_proportionally, pyInt, min_def]
  refine ⟨h1, h2, h3, ?_⟩
  rintro ⟨sw, sh, hok⟩
  rw [h1] at hok
  exact Except.noConfusion hok

theorem pyInt_eq_floor {q : ℚ} (hq : 0 ≤ q) : pyInt q = ⌊q⌋ := by
  unfold pyInt
  rw [if_pos hq]

theorem fitScale_w_mul_nonneg {w h : ℕ} {cW cH : ℚ} (hw : 0 < w) (hh : 0 < h)
    (hcW : 0 < cW) (hcH : 0 < cH) : (0 : ℚ) ≤ (w : ℚ) * fitScale w h cW cH :=
  mul_nonneg (by positivity) (le_of_lt (fitScale_pos hw hh hcW hcH))

theorem fitScale_h_mul_nonneg {w h : ℕ} {cW cH : ℚ} (hw : 0 < w) (hh : 0 < h)
    (hcW : 0 < cW) (hcH : 0 < cH) : (0 : ℚ) ≤ (h : ℚ) * fitScale w h cW cH :=
  mul_nonneg (by positivity) (le_of_lt (fitScale_pos hw hh hcW hcH))

/-- C2 (corrected): whenever the dual-layout fit returns, it has computed
`scale = min(cellW/w, cellH/h)` and floored both scaled dimensions; the
drawing code places each image at its cell origin plus the centering
offsets `((cellW - sw)/2, (cellH - sh)/2)` — identically for the upper and
lower cells, so composition is translation-invariant — with both offsets
nonnegative; and when the native aspect ratio differs from the cell aspect
ratio exactly one axis is exactly filled (up to integer truncation, the
filled axis's floored size being `⌊cell⌋`) while the other axis stays
strictly inside its bound before truncation.  The original unconditional
"for every strictly positive input" reading fails: when a floored dimension
drops below 1 the final `img.resize` raises `ValueError` and nothing is
returned (see the counterexample). -/
theorem C2_fit_floors_centers_and_fills_one_axis (w h : ℕ) (cW cH margin gap : ℚ)
    (sw sh : ℤ) (hcW : 0 < cW) (hcH : 0 < cH)
    (hok : DualLayout.resize_image_to_fit w h cW cH true = .ok (sw, sh)) :
    sw = ⌊(w : ℚ) * min (cW / w) (cH / h)⌋ ∧
    sh = ⌊(h : ℚ) * min (cW / w) (cH / h)⌋ ∧
    DualLayout.upper_position margin gap cW cH sw sh =
      (margin + (cW - sw) / 2, (margin + cH + gap) + (cH - sh) / 2) ∧
    DualLayout.lower_position margin cW cH sw sh =
      (margin + (cW - sw) / 2, margin + (cH - sh) / 2) ∧
    0 ≤ (cW - sw) / 2 ∧ 0 ≤ (cH - sh) / 2 ∧
    (cW * h ≠ cH * w →
      (((w : ℚ) * min (cW / w) (cH / h) = cW ∧ sw = ⌊cW⌋ ∧
        (h : ℚ) * min (cW / w) (cH / h) < cH) ∨
       ((h : ℚ) * min (cW / w) (cH / h) = cH ∧ sh = ⌊cH⌋ ∧
        (w : ℚ) * min (cW / w) (cH / h) < cW))) := by
  obtain ⟨hw, hh, hsw, hsh, hsw1, hsh1⟩ := dual_resize_ok_inv hok
  have hw' : (0 : ℚ) < w := by exact_mod_cast hw
  have hh' : (0 : ℚ) < h := by exact_mod_cast hh
  subst hsw
  subst hsh
  refine ⟨?_, ?_, ?_, ?_, ?_, ?_, ?_⟩
  · rw [pyInt_eq_floor (fitScale_w_mul_nonneg hw hh hcW hcH)]; rfl
  · rw [pyInt_eq_floor (fitScale_h_mul_nonneg hw hh hcW hcH)]; rfl
  · unfold DualLayout.upper_position
    exact Prod.ext rfl (by ring)
  · rfl
  · have h1 : (pyInt (w * fitScale w h cW cH) : ℚ) ≤ cW :=
      le_trans (pyInt_cast_le (fitScale_w_mul_nonneg hw hh hcW hcH))
        (fitScale_mul_w_le hw hh)
    linarith
  · have h1 : (pyInt (h * fitScale w h cW cH) : ℚ) ≤ cH :=
      le_trans (pyInt_cast_le (fitScale_h_mul_nonneg hw hh hcW hcH))
        (fitScale_mul_h_le hw hh)
    linarith
  · intro hne
    have hab : cW / w ≠ cH / h := by
      intro hEq
      apply hne
      field_simp at hEq
      linarith [hEq]
    rcases lt_or_gt_of_ne hab with hlt | hgt
    · left
      have hmin : min (cW / w) (cH / h) = cW / w := min_eq_left (le_of_lt hlt)
      have hfillW : (w : ℚ) * min (cW / w) (cH / h) = cW := by
        rw [hmin]; field_simp
      refine ⟨hfillW, ?_, ?_⟩
      · have : (w : ℚ) * fitScale w h cW cH = cW := hfillW
        rw [pyInt_eq_floor (fitScale_w_mul_nonneg hw hh hcW hcH),
          show fitScale w h cW cH = min (cW / w) (cH / h) from rfl, hfillW]
      · rw [hmin]
        calc (h : ℚ) * (cW / w) < (h : ℚ) * (cH / h) :=
              mul_lt_mul_of_pos_left hlt hh'
          _ = cH := by field_simp
    · right
      have hmin : min (cW / w) (cH / h) = cH / h := min_eq_right (le_of_lt hgt)
      have hfillH : (h : ℚ) * min (cW / w) (cH / h) = cH := by
        rw [hmin]; field_simp
      refine ⟨hfillH, ?_, ?_⟩
      · rw [pyInt_eq_floor (fitScale_h_mul_nonneg hw hh hcW hcH),
          show fitScale w h cW cH = min (cW / w) (cH / h) from rfl, hfillH]
      · rw [hmin]
        calc (w : ℚ) * (cH / h) < (w : ℚ) * (cW / w) :=
              mul_lt_mul_of_pos_left hgt hw'
          _ = cW := by field_simp

theorem C2_fit_floors_centers_and_fills_one_axis_witness :
    (0 : ℚ) < 6 ∧ (0 : ℚ) < 9 ∧
    DualLayout.resize_image_to_fit 4 3 6 9 true = .ok (6, 4) ∧
    ((6 : ℤ) = ⌊(4 : ℚ) * min ((6 : ℚ) / 4) ((9 : ℚ) / 3)⌋ ∧
     (4 : ℤ) = ⌊(3 : ℚ) * min ((6 : ℚ) / 4) ((9 : ℚ) / 3)⌋ ∧
     DualLayout.upper_position 20 10 6 9 6 4 =
       ((20 : ℚ) + (6 - ((6 : ℤ) : ℚ)) / 2,
        ((20 : ℚ) + 9 + 10) + (9 - ((4 : ℤ) : ℚ)) / 2) ∧
     DualLayout.lower_position 20 6 9 6 4 =
       ((20 : ℚ) + (6 - ((6 : ℤ) : ℚ)) / 2, (20 : ℚ) + (9 - ((4 : ℤ) : ℚ)) / 2) ∧
     0 ≤ ((6 : ℚ) - ((6 : ℤ) : ℚ)) / 2 ∧ 0 ≤ ((9 : ℚ) - ((4 : ℤ) : ℚ)) / 2 ∧
     ((6 : ℚ) * 3 ≠ 9 * 4 →
       (((4 : ℚ) * min ((6 : ℚ) / 4) ((9 : ℚ) / 3) = 6 ∧ (6 : ℤ) = ⌊(6 : ℚ)⌋ ∧
         (3 : ℚ) * min ((6 : ℚ) / 4) ((9 : ℚ) / 3) < 9) ∨
        ((3 : ℚ) * min ((6 : ℚ) / 4) ((9 : ℚ) / 3) = 9 ∧ (4 : ℤ) = ⌊(9 : ℚ)⌋ ∧
         (4 : ℚ) * min ((6 : ℚ) / 4) ((9 : ℚ) / 3) < 6)))) := by
  have hok : DualLayout.resize_image_to_fit 4 3 6 9 true = .ok (6, 4) := by
    norm_num [DualLayout.resize_image_to_fit, pyInt, min_def]
  exact ⟨by norm_num, by norm_num, hok,
    C2_fit_floors_centers_and_fills_one_axis 4 3 6 9 20 10 6 4
      (by norm_num) (by norm_num) hok⟩

/-- C2 counterexample: the strictly positive input `1 × 100` into a
`50 × 50` cell scales to width `int(0.5) = 0`, so the fit raises
`ValueError` out of `img.resize` and returns nothing — the claim's
unconditional computation of floored dimensions and centering offsets for
every strictly positive input is false. -/
theorem C2_counterexample :
    DualLayout.resize_image_to_fit 1 100 50 50 true = .error .valueError ∧
    ¬∃ sw sh : ℤ,
      DualLayout.resize_image_to_fit 1 100 50 50 true = .ok (sw, sh) := by
  have h1 : DualLayout.resize_image_to_fit 1 100 50 50 true =
      .error .valueError := by
    norm_num [DualLayout.resize_image_to_fit, pyInt, min_def]
  refine ⟨h1, ?_⟩
  rintro ⟨sw, sh, hok⟩
  rw [h1] at hok
  exact Except.noConfusion hok

theorem C1_fit_never_exceeds_cell_witness :
    (0 : ℚ) < 5 ∧ (0 : ℚ) < 7 ∧
    ((∀ sw sh : ℤ,
      DualLayout.resize_image_to_fit 3 2 5 7 true = .ok (sw, sh) →
      PdfMerger.resize_image_to_fit 3 2 5 7 = .ok (sw, sh) ∧
      Grid.resize_image_proportionally 3 2 5 7 = .ok (sw, sh) ∧
      1 ≤ sw ∧ 1 ≤ sh ∧ (sw : ℚ) ≤ 5 ∧ (sh : ℚ) ≤ 7) ∧
    (1 ≤ pyInt (3 * fitScale 3 2 5 7) → 1 ≤ pyInt (2 * fitScale 3 2 5 7) →
      ∃ sw sh : ℤ,
        DualLayout.resize_image_to_fit 3 2 5 7 true = .ok (sw, sh)) ∧
    ((pyInt (3 * fitScale 3 2 5 7) < 1 ∨ pyInt (2 * fitScale 3 2 5 7) < 1) →
      DualLayout.resize_image_to_fit 3 2 5 7 true = .error .valueError ∧
      PdfMerger.resize_image_to_fit 3 2 5 7 = .error .valueError ∧
      Grid.resize_image_proportionally 3 2 5 7 = .error .valueError)) :=
  ⟨by norm_num, by norm_num,
   C1_fit_never_exceeds_cell 3 2 5 7 (by norm_num) (by norm_num)
     (by norm_num) (by norm_num)⟩

/-- C7 (corrected): for a document with at least one page, an in-range page
index renders exactly the requested page, and an out-of-range index falls
back to rendering page 0 instead of failing.  (A zero-page document fails
regardless of the requested index — see the counterexample.) -/
theorem C7_page_index_fallback (page_count page_num : ℕ) (hpc : 0 < page_count) :
    (page_num < page_count →
      DualLayout.pdf_to_image_page page_count page_num = some page_num) ∧
    (page_count ≤ page_num →
      DualLayout.pdf_to_image_page page_count page_num = some 0) := by
  constructor
  · intro hin
    have h1 : ¬ page_num ≥ page_count := by omega
    simp [DualLayout.pdf_to_image_page, h1, hin]
  · intro hout
    have h1 : page_num ≥ page_count := hout
    simp [DualLayout.pdf_to_image_page, h1, hpc]

theorem C7_page_index_fallback_witness :
    0 < 2 ∧
    ((5 < 2 → DualLayout.pdf_to_image_page 2 5 = some 5) ∧
     (2 ≤ 5 → DualLayout.pdf_to_image_page 2 5 = some 0)) :=
  ⟨by decide, C7_page_index_fallback 2 5 (by decide)⟩

/-- C7 counterexample: for a zero-page document every index is out of range
and the rasterizer fails (returns `None`) rather than rendering page 0, so
the claim as stated — out-of-range always renders page 0 instead of
failing — is false for `page_count = 0`, `page_num = 3`. -/
theorem C7_counterexample :
    DualLayout.pdf_to_image_page 0 3 = none ∧
    DualLayout.pdf_to_image_page 0 3 ≠ some 0 := by
  constructor
  · rfl
  · intro hcontra
    exact Option.noConfusion hcontra

/-- C9 (corrected): the fit computations perform no input validation and
define no `InvalidGeometry` error at all: a zero native dimension raises
Python's `ZeroDivisionError` out of the function; with positive native
sizes, a nonpositive cell width makes the floored scaled width nonpositive,
so the final `img.resize` raises `ValueError`; no error that is raised is
an `InvalidGeometry` failure. -/
theorem C9_fit_has_no_geometry_validation (w h : ℕ) (cW cH : ℚ) :
    ((w = 0 ∨ h = 0) →
      DualLayout.resize_image_to_fit w h cW cH true = .error .zeroDivision ∧
      PdfMerger.resize_image_to_fit w h cW cH = .error .zeroDivision ∧
      Grid.resize_image_proportionally w h cW cH = .error .zeroDivision) ∧
    (0 < w → 0 < h → cW ≤ 0 →
      DualLayout.resize_image_to_fit w h cW cH true = .error .valueError ∧
      PdfMerger.resize_image_to_fit w h cW cH = .error .valueError ∧
      Grid.resize_image_proportionally w h cW cH = .error .valueError) ∧
    (∀ e, DualLayout.resize_image_to_fit w h cW cH true = .error e →
      e ≠ PyError.invalidGeometry) := by
  refine ⟨?_, ?_, ?_⟩
  · intro hz
    refine ⟨?_, ?_, ?_⟩
    · unfold DualLayout.resize_image_to_fit
      rw [if_pos rfl, if_pos hz]
    · unfold PdfMerger.resize_image_to_fit
      rw [if_pos hz]
    · unfold Grid.resize_image_proportionally
      rw [if_pos hz]
  · intro hw hh hcW
    have hw' : (0 : ℚ) < w := by exact_mod_cast hw
    have hdiv : cW / w ≤ 0 := div_nonpos_iff.mpr (Or.inr ⟨hcW, hw'.le⟩)
    have hsc : fitScale w h cW cH ≤ 0 := le_trans (min_le_left _ _) hdiv
    have hq : (w : ℚ) * fitScale w h cW cH ≤ 0 :=
      mul_nonpos_iff.mpr (Or.inl ⟨hw'.le, hsc⟩)
    have hlt : pyInt (w * fitScale w h cW cH) < 1 ∨
        pyInt (h * fitScale w h cW cH) < 1 := by
      left
      have := pyInt_nonpos hq
      omega
    exact ⟨dual_resize_eq_error cW cH hw hh hlt,
      pdfm_resize_eq_error cW cH hw hh hlt,
      grid_resize_eq_error cW cH hw hh hlt⟩
  · intro e he hcontra
    subst hcontra
    unfold DualLayout.resize_image_to_fit at he
    rw [if_pos rfl] at he
    by_cases hz : w = 0 ∨ h = 0
    · rw [if_pos hz] at he
      exact PyError.noConfusion (Except.error.inj he)
    · rw [if_neg hz] at he
      by_cases hlt : pyInt ((w : ℚ) * min (cW / w) (cH / h)) < 1 ∨
          pyInt ((h : ℚ) * min (cW / w) (cH / h)) < 1
      · rw [if_pos hlt] at he
        exact PyError.noConfusion (Except.error.inj he)
      · rw [if_neg hlt] at he
        exact Except.noConfusion he

theorem C9_fit_has_no_geometry_validation_witness :
    DualLayout.resize_image_to_fit 0 10 100 100 true = .error .zeroDivision ∧
    DualLayout.resize_image_to_fit 10 10 0 100 true = .error .valueError :=
  ⟨((C9_fit_has_no_geometry_validation 0 10 100 100).1 (Or.inl rfl)).1,
   ((C9_fit_has_no_geometry_validation 10 10 0 100).2.1 (by norm_num)
     (by norm_num) (by norm_num)).1⟩

/-- C9 counterexample: at native width 0 the fit raises `ZeroDivisionError`,
not `InvalidGeometry`; at cell width 0 (a nonpositive input, native size
10 × 10) the scaled width floors to 0 and `img.resize` raises `ValueError`
— again not `InvalidGeometry`.  So nonpositive inputs never produce the
`InvalidGeometry` failure the claim states. -/
theorem C9_counterexample :
    DualLayout.resize_image_to_fit 0 10 100 100 true = .error .zeroDivision ∧
    DualLayout.resize_image_to_fit 0 10 100 100 true ≠ .error .invalidGeometry ∧
    PdfMerger.resize_image_to_fit 0 10 100 100 = .error .zeroDivision ∧
    DualLayout.resize_image_to_fit 10 10 0 100 true = .error .valueError ∧
    DualLayout.resize_image_to_fit 10 10 0 100 true ≠ .error .invalidGeometry ∧
    PdfMerger.resize_image_to_fit 10 10 0 100 = .error .valueError := by
  have h1 : DualLayout.resize_image_to_fit 0 10 100 100 true =
      .error .zeroDivision := rfl
  have h2 : DualLayout.resize_image_to_fit 10 10 0 100 true =
      .error .valueError := by
    norm_num [DualLayout.resize_image_to_fit, pyInt, min_def]
  have h3 : PdfMerger.resize_image_to_fit 10 10 0 100 = .error .valueError := by
    norm_num [PdfMerger.resize_image_to_fit, pyInt, min_def]
  refine ⟨h1, ?_, rfl, h2, ?_, h3⟩
  · intro hcontra
    rw [h1] at hcontra
    exact PyError.noConfusion (Except.error.inj hcontra)
  · intro hcontra
    rw [h2] at hcontra
    exact PyError.noConfusion (Except.error.inj hcontra)

/-! ### Grid variant: layout and composition (src/pdf_to_image_merger.py) -/

/-- The value of Python's `math.ceil(a / b)` for natural `a` and positive
natural `b` (the quotient being exact rational division). -/
def cdiv (a b : ℕ) : ℕ := (a + b - 1) / b

theorem cdiv_eq_ceil (a b : ℕ) (hb : 0 < b) : (cdiv a b : ℤ) = ⌈(a : ℚ) / b⌉ := by
  have hb' : (0 : ℚ) < (b : ℚ) := by exact_mod_cast hb
  have hmod := Nat.div_add_mod (a + b - 1) b
  have hrlt : (a + b - 1) % b < b := Nat.mod_lt _ hb
  have h1 : a ≤ b * ((a + b - 1) / b) := by omega
  have h2 : b * ((a + b - 1) / b) < a + b := by omega
  have h1' : (a : ℚ) ≤ (((a + b - 1) / b : ℕ) : ℚ) * b := by
    rw [mul_comm]; exact_mod_cast h1
  have h2' : (((a + b - 1) / b : ℕ) : ℚ) * b < (a : ℚ) + b := by
    rw [mul_comm]; exact_mod_cast h2
  unfold cdiv
  symm
  rw [Int.ceil_eq_iff]
  refine ⟨?_, ?_⟩
  · rw [Int.cast_natCast]
    refine (lt_div_iff₀ hb').mpr ?_
    have hring : ((((a + b - 1) / b : ℕ) : ℚ) - 1) * b =
        (((a + b - 1) / b : ℕ) : ℚ) * b - b := by ring
    rw [hring]
    linarith
  · rw [Int.cast_natCast]
    exact (div_le_iff₀ hb').mpr h1'

namespace Grid

/-- Instance attribute `self.margin = 20` (src/pdf_to_image_merger.py:38). -/
def margin : ℕ := 20

/-- Instance attribute `self.border_width = 2` (src/pdf_to_image_merger.py:41). -/
def border_width : ℕ := 2

/-- `label_height = font_size + 20` in `add_image_label`
(src/pdf_to_image_merger.py:137); the default `font_size` is 24. -/
def label_height (font_size : ℕ) : ℕ := font_size + 20

/-- The label attached to a grid item (src/pdf_to_image_merger.py:259-266):
the file's stem, with a 1-based page-number suffix when the file
contributed more than one page. -/
inductive Label where
  | plain (stem : List ℕ)
  | withPage (stem : List ℕ) (page : ℕ)
deriving DecidableEq, Repr

/-- `PDFToImageMerger.calculate_grid_layout`
(src/pdf_to_image_merger.py:83-99), returning `(rows, cols)`:
`if total_images <= max_cols: return 1, total_images`, otherwise
`cols = min(max_cols, total_images)` and `rows = ceil(total_images/cols)`. -/
def calculate_grid_layout (total_images max_cols : ℕ) : ℕ × ℕ :=
  if total_images ≤ max_cols then (1, total_images)
  else (cdiv total_images (min max_cols total_images), min max_cols total_images)

/-- One placed grid cell: the cell's canvas position, the paste offsets of
the labeled image inside the cell (Python `//` floor division, so they may
be negative in general), the labeled image's dimensions, and its label. -/
structure Cell where
  x : ℕ
  y : ℕ
  paste_x : ℤ
  paste_y : ℤ
  labeled_width : ℤ
  labeled_height : ℤ
  label : Label
deriving DecidableEq, Repr

/-- The output composite: canvas dimensions and the placed cells. -/
structure Canvas where
  width : ℕ
  height : ℕ
  cells : List Cell
deriving DecidableEq, Repr

/-- Body of the placement loop of `merge_images_to_grid` for item `i`
(src/pdf_to_image_merger.py:195-224): `row = i // cols`, `col = i % cols`,
cell at `(col*(cell_width+margin)+margin, row*(cell_height+margin)+margin)`;
the image is resized into `cell_width - 2*border_width` by
`cell_height - 2*border_width - 50` (50 reserved for the label), the label
band of height `label_height 24` is added on top, and the labeled image is
pasted centered into the cell with `//`-floored offsets. -/
def place_image (cols cell_width cell_height : ℕ) (i : ℕ)
    (img : ℕ × ℕ) (lbl : Label) : Except PyError Cell :=
  let row := i / cols
  let col := i % cols
  let x := col * (cell_width + margin) + margin
  let y := row * (cell_height + margin) + margin
  match resize_image_proportionally img.1 img.2
      ((cell_width : ℚ) - border_width * 2)
      ((cell_height : ℚ) - border_width * 2 - 50) with
  | .error e => .error e
  | .ok (rw, rh) =>
    let lw := rw
    let lh := rh + label_height 24
    .ok { x := x, y := y,
          paste_x := ((cell_width : ℤ) - lw).fdiv 2,
          paste_y := ((cell_height : ℤ) - lh).fdiv 2,
          labeled_width := lw, labeled_height := lh, label := lbl }

/-- The placement loop of `merge_images_to_grid`
(src/pdf_to_image_merger.py:195-224) over the enumerated items; a Python
exception (only possible for a zero-dimension image) aborts the loop. -/
def place_all (cols cell_width cell_height : ℕ) :
    List (ℕ × ((ℕ × ℕ) × Label)) → Except PyError (List Cell)
  | [] => .ok []
  | (i, (img, lbl)) :: rest =>
    match place_image cols cell_width cell_height i img lbl with
    | .error e => .error e
    | .ok c =>
      match place_all cols cell_width cell_height rest with
      | .error e => .error e
      | .ok cs => .ok (c :: cs)

/-- `PDFToImageMerger.merge_images_to_grid`
(src/pdf_to_image_merger.py:165-229): `none` when there are no images
(early return, no file written); otherwise the composite with
`canvas_width = cols*(cell_width+margin)+margin`,
`canvas_height = rows*(cell_height+margin)+margin` and the placed cells of
`enumerate(zip(all_images, image_labels))`. -/
def merge_images_to_grid (all_images : List (ℕ × ℕ)) (image_labels : List Label)
    (cell_width cell_height max_cols : ℕ) : Option (Except PyError Canvas) :=
  if all_images.isEmpty then none
  else
    let total_images := all_images.length
    let rc := calculate_grid_layout total_images max_cols
    let canvas_width := rc.2 * (cell_width + margin) + margin
    let canvas_height := rc.1 * (cell_height + margin) + margin
    match place_all rc.2 cell_width cell_height ((all_images.zip image_labels).enum) with
    | .error e => some (.error e)
    | .ok cells => some (.ok ⟨canvas_width, canvas_height, cells⟩)

/-- A source PDF as the grid variant sees it: filename stem and the
dimensions of its rendered pages, `none` when rendering the document
raises. -/
structure PdfFile where
  stem : List ℕ
  pages : Option (List (ℕ × ℕ))
deriving DecidableEq, Repr

/-- `PDFToImageMerger.convert_pdf_to_images`
(src/pdf_to_image_merger.py:43-81): one image per page of the document; on
any exception the handler returns the empty list. -/
def convert_pdf_to_images (f : PdfFile) : List (ℕ × ℕ) :=
  match f.pages with
  | none => []
  | some ps => ps

/-- The collection loop of `process_pdfs_to_merged_image`
(src/pdf_to_image_merger.py:256-266): all pages of all files in order, each
with its label (`stem (第i+1页)` when the file contributed more than one
page, plain `stem` otherwise). -/
def collect_images (files : List PdfFile) : List ((ℕ × ℕ) × Label) :=
  files.flatMap fun f =>
    let images := convert_pdf_to_images f
    images.enum.map fun p =>
      (p.2, if images.length > 1 then Label.withPage f.stem (p.1 + 1)
            else Label.plain f.stem)

end Grid

theorem mem_of_getElem?_eq {α : Type} {l : List α} {i : ℕ} {a : α}
    (h : l[i]? = some a) : a ∈ l := by
  obtain ⟨hlt, rfl⟩ := List.getElem?_eq_some.mp h
  exact List.getElem_mem hlt

namespace Grid

/-- The fit of a `w × h` image into its grid cell's resize target
(`cell_width - 2*border_width` by `cell_height - 2*border_width - 50`)
completes without raising. -/
def cellFit (cell_width cell_height w h : ℕ) : Prop :=
  fits w h ((cell_width : ℚ) - border_width * 2)
    ((cell_height : ℚ) - border_width * 2 - 50)

instance (cw ch w h : ℕ) : Decidable (cellFit cw ch w h) := by
  unfold cellFit
  exact inferInstance

theorem cellFit_elim {cw ch w h : ℕ} (hf : cellFit cw ch w h) :
    0 < w ∧ 0 < h ∧
    1 ≤ pyInt (w * fitScale w h ((cw : ℚ) - border_width * 2)
      ((ch : ℚ) - border_width * 2 - 50)) ∧
    1 ≤ pyInt (h * fitScale w h ((cw : ℚ) - border_width * 2)
      ((ch : ℚ) - border_width * 2 - 50)) := hf

/-- When the image fits its cell target, `place_image` succeeds and the
placed cell is fully determined by the loop index and the fit
computation. -/
theorem place_image_ok (cols cell_width cell_height i w h : ℕ) (lbl : Label)
    (hfit : cellFit cell_width cell_height w h) :
    place_image cols cell_width cell_height i (w, h) lbl = .ok
      { x := (i % cols) * (cell_width + margin) + margin,
        y := (i / cols) * (cell_height + margin) + margin,
        paste_x := ((cell_width : ℤ) -
          pyInt (w * fitScale w h ((cell_width : ℚ) - border_width * 2)
            ((cell_height : ℚ) - border_width * 2 - 50))).fdiv 2,
        paste_y := ((cell_height : ℤ) -
          (pyInt (h * fitScale w h ((cell_width : ℚ) - border_width * 2)
            ((cell_height : ℚ) - border_width * 2 - 50)) + label_height 24)).fdiv 2,
        labeled_width := pyInt (w * fitScale w h ((cell_width : ℚ) - border_width * 2)
          ((cell_height : ℚ) - border_width * 2 - 50)),
        labeled_height := pyInt (h * fitScale w h ((cell_width : ℚ) - border_width * 2)
          ((cell_height : ℚ) - border_width * 2 - 50)) + label_height 24,
        label := lbl } := by
  obtain ⟨hw, hh, h1, h2⟩ := cellFit_elim hfit
  unfold place_image
  rw [grid_resize_eq_scaled _ _ hw hh h1 h2]

/-- When every item fits its cell target, the placement loop succeeds,
produces one cell per item, and the `k`-th cell is the placement of the
`k`-th item. -/
theorem place_all_ok (cols cell_width cell_height : ℕ)
    (l : List (ℕ × ((ℕ × ℕ) × Label))) :
    (∀ e ∈ l, cellFit cell_width cell_height e.2.1.1 e.2.1.2) →
    ∃ cs, place_all cols cell_width cell_height l = .ok cs ∧
      cs.length = l.length ∧
      ∀ (k : ℕ) (e : ℕ × ((ℕ × ℕ) × Label)), l[k]? = some e →
        ∃ c, cs[k]? = some c ∧
          place_image cols cell_width cell_height e.1 e.2.1 e.2.2 = .ok c := by
  induction l with
  | nil =>
    intro _
    refine ⟨[], rfl, rfl, ?_⟩
    intro k e he
    simp at he
  | cons hd tl ih =>
    intro hpos
    obtain ⟨i, ⟨wh, lbl⟩⟩ := hd
    obtain ⟨w, h⟩ := wh
    have hfit : cellFit cell_width cell_height w h :=
      hpos _ (List.mem_cons_self _ _)
    obtain ⟨cs, hcs, hlen, hidx⟩ := ih (fun e he => hpos e (List.mem_cons_of_mem _ he))
    obtain ⟨c0, hc0⟩ : ∃ c0, place_image cols cell_width cell_height i (w, h) lbl = .ok c0 :=
      ⟨_, place_image_ok cols cell_width cell_height i w h lbl hfit⟩
    refine ⟨c0 :: cs, ?_, by simp [hlen], ?_⟩
    · show place_all cols cell_width cell_height ((i, ((w, h), lbl)) :: tl) = _
      unfold place_all
      rw [hc0, hcs]
    · intro k e he
      match k with
      | 0 =>
        simp only [List.getElem?_cons_zero, Option.some.injEq] at he
        subst he
        exact ⟨c0, List.getElem?_cons_zero, hc0⟩
      | k + 1 =>
        simp only [List.getElem?_cons_succ] at he ⊢
        exact hidx k e he

/-- For positive `total_images` and `max_cols`, both branches of
`calculate_grid_layout` agree with the closed form
`(ceil(total/cols), min(max_cols, total))`. -/
theorem calculate_grid_layout_eq (n maxCols : ℕ) (hn : 0 < n) (hmc : 0 < maxCols) :
    calculate_grid_layout n maxCols = (cdiv n (min maxCols n), min maxCols n) := by
  unfold calculate_grid_layout
  by_cases hle : n ≤ maxCols
  · rw [if_pos hle]
    have hmin : min maxCols n = n := min_eq_right hle
    have hone : cdiv n n = 1 := by
      unfold cdiv
      exact Nat.div_eq_of_lt_le (by omega) (by omega)
    rw [hmin, hone]
  · rw [if_neg hle]

end Grid

/-- C5 (corrected): for a nonempty image sequence and positive `max_cols`,
when every image fits its cell's resize target the grid merge succeeds with
`cols = min(max_cols, itemCount)` columns,
`rows = ceil(itemCount / cols)` rows (`cdiv` being the exact rational
ceiling), and a canvas of exactly `cols*(cellW+margin)+margin` by
`rows*(cellH+margin)+margin` pixels.  Without the fit proviso the merge
need not produce a canvas at all: a single image whose floored scaled
dimension drops below 1 makes `img.resize` raise `ValueError` and the run
aborts (see the counterexample). -/
theorem C5_grid_cols_rows_canvas (all_images : List (ℕ × ℕ))
    (image_labels : List Grid.Label) (cW cH maxCols : ℕ)
    (hne : all_images ≠ []) (hmc : 0 < maxCols)
    (hpos : ∀ p ∈ all_images, Grid.cellFit cW cH p.1 p.2) :
    ∃ cv : Grid.Canvas,
      Grid.merge_images_to_grid all_images image_labels cW cH maxCols =
        some (.ok cv) ∧
      Grid.calculate_grid_layout all_images.length maxCols =
        (cdiv all_images.length (min maxCols all_images.length),
         min maxCols all_images.length) ∧
      cv.width = (min maxCols all_images.length) * (cW + Grid.margin) + Grid.margin ∧
      cv.height = (cdiv all_images.length (min maxCols all_images.length)) *
        (cH + Grid.margin) + Grid.margin ∧
      (cdiv all_images.length (min maxCols all_images.length) : ℤ) =
        ⌈(all_images.length : ℚ) / (min maxCols all_images.length)⌉ := by
  have hn : 0 < all_images.length := List.length_pos.mpr hne
  have hcols : 0 < min maxCols all_images.length := lt_min hmc hn
  have hlayout := Grid.calculate_grid_layout_eq all_images.length maxCols hn hmc
  have hpos' : ∀ e ∈ (all_images.zip image_labels).enum,
      Grid.cellFit cW cH e.2.1.1 e.2.1.2 := by
    intro e he
    have hz : (all_images.zip image_labels)[e.1]? = some e.2 :=
      List.mem_enum_iff_getElem?.mp he
    have hmem : e.2 ∈ all_images.zip image_labels := mem_of_getElem?_eq hz
    exact hpos _ (List.of_mem_zip hmem).1
  obtain ⟨cs, hcs, _, _⟩ :=
    Grid.place_all_ok (Grid.calculate_grid_layout all_images.length maxCols).2
      cW cH ((all_images.zip image_labels).enum) hpos'
  refine ⟨⟨(Grid.calculate_grid_layout all_images.length maxCols).2 * (cW + Grid.margin) + Grid.margin,
           (Grid.calculate_grid_layout all_images.length maxCols).1 * (cH + Grid.margin) + Grid.margin,
           cs⟩, ?_, hlayout, ?_, ?_, ?_⟩
  · unfold Grid.merge_images_to_grid
    rw [if_neg (by simp [List.isEmpty_iff, hne])]
    simp only [hcs]
  · rw [hlayout]
  · rw [hlayout]
  · exact cdiv_eq_ceil _ _ hcols

theorem C5_grid_cols_rows_canvas_witness :
    ([((100 : ℕ), (200 : ℕ)), (50, 60), (70, 80)] : List (ℕ × ℕ)) ≠ [] ∧
    (0 : ℕ) < 2 ∧
    (∃ cv : Grid.Canvas,
      Grid.merge_images_to_grid [((100 : ℕ), (200 : ℕ)), (50, 60), (70, 80)]
        [Grid.Label.plain [97], Grid.Label.plain [98], Grid.Label.plain [99]]
        400 500 2 = some (.ok cv) ∧
      Grid.calculate_grid_layout 3 2 = (cdiv 3 (min 2 3), min 2 3) ∧
      cv.width = (min 2 3) * (400 + Grid.margin) + Grid.margin ∧
      cv.height = (cdiv 3 (min 2 3)) * (500 + Grid.margin) + Grid.margin ∧
      (cdiv 3 (min 2 3) : ℤ) = ⌈(3 : ℚ) / (min 2 3 : ℕ)⌉) := by
  refine ⟨by simp, by norm_num, ?_⟩
  have h := C5_grid_cols_rows_canvas [((100 : ℕ), (200 : ℕ)), (50, 60), (70, 80)]
    [Grid.Label.plain [97], Grid.Label.plain [98], Grid.Label.plain [99]]
    400 500 2 (by simp) (by norm_num)
    (by
      intro p hp
      fin_cases hp <;>
        norm_num [Grid.cellFit, fits, pyInt, fitScale, min_def, Grid.border_width])
  simpa using h

/-- C5 counterexample: a single strictly positive `10000 × 1` image in the
default `400 × 500` grid targets a `396 × 446` resize box, where its height
floors to `int(1 * 396/10000) = 0`; `img.resize` raises `ValueError`, so the
merge produces no canvas at all — the claim's unconditional cols/rows/canvas
guarantee fails. -/
theorem C5_counterexample :
    Grid.merge_images_to_grid [((10000 : ℕ), (1 : ℕ))] [Grid.Label.plain [97]]
      400 500 4 = some (.error .valueError) ∧
    ¬∃ cv : Grid.Canvas,
      Grid.merge_images_to_grid [((10000 : ℕ), (1 : ℕ))] [Grid.Label.plain [97]]
        400 500 4 = some (.ok cv) := by
  have hres : Grid.resize_image_proportionally 10000 1
      (((400 : ℕ) : ℚ) - Grid.border_width * 2)
      (((500 : ℕ) : ℚ) - Grid.border_width * 2 - 50) = .error .valueError := by
    norm_num [Grid.resize_image_proportionally, pyInt, min_def, Grid.border_width]
  have hplace : Grid.place_image 1 400 500 0 (10000, 1) (Grid.Label.plain [97]) =
      .error .valueError := by
    unfold Grid.place_image
    dsimp only
    rw [hres]
  have hall : Grid.place_all 1 400 500 [(0, ((10000, 1), Grid.Label.plain [97]))] =
      .error .valueError := by
    unfold Grid.place_all
    rw [hplace]
  have hmerge : Grid.merge_images_to_grid [((10000 : ℕ), (1 : ℕ))]
      [Grid.Label.plain [97]] 400 500 4 = some (.error .valueError) := by
    unfold Grid.merge_images_to_grid
    rw [if_neg (by simp)]
    rw [show (([((10000 : ℕ), (1 : ℕ))].zip [Grid.Label.plain [97]]).enum) =
      [(0, ((10000, 1), Grid.Label.plain [97]))] from rfl]
    dsimp only
    rw [show Grid.calculate_grid_layout
      (List.length [((10000 : ℕ), (1 : ℕ))]) 4 = (1, 1) from rfl]
    dsimp only
    rw [hall]
  refine ⟨hmerge, ?_⟩
  rintro ⟨cv, hcv⟩
  rw [hmerge] at hcv
  exact Except.noConfusion (Option.some.inj hcv)

theorem le_mul_cdiv (a b : ℕ) (hb : 0 < b) : a ≤ b * cdiv a b := by
  unfold cdiv
  have hmod := Nat.div_add_mod (a + b - 1) b
  have hrlt : (a + b - 1) % b < b := Nat.mod_lt _ hb
  omega

theorem mul_succ_le_of_lt {a b s : ℕ} (h : a < b) : a * s + s ≤ b * s := by
  calc a * s + s = (a + 1) * s := by ring
    _ ≤ b * s := Nat.mul_le_mul_right s h

namespace Grid

/-- Master characterisation of a successful grid merge: canvas dimensions
and, for every placed cell, the zipped item it was placed from. -/
theorem merge_cells_spec (all_images : List (ℕ × ℕ)) (image_labels : List Label)
    (cW cH maxCols : ℕ) (hne : all_images ≠ []) (hmc : 0 < maxCols)
    (hpos : ∀ p ∈ all_images, cellFit cW cH p.1 p.2) :
    ∃ cv : Canvas,
      merge_images_to_grid all_images image_labels cW cH maxCols = some (.ok cv) ∧
      cv.width = (min maxCols all_images.length) * (cW + margin) + margin ∧
      cv.height = (cdiv all_images.length (min maxCols all_images.length)) *
        (cH + margin) + margin ∧
      cv.cells.length = (all_images.zip image_labels).length ∧
      (∀ (k : ℕ) (c : Cell), cv.cells[k]? = some c →
        ∃ (w h : ℕ) (lbl : Label),
          (all_images.zip image_labels)[k]? = some ((w, h), lbl) ∧
          cellFit cW cH w h ∧
          place_image (min maxCols all_images.length) cW cH k (w, h) lbl = .ok c) := by
  have hn : 0 < all_images.length := List.length_pos.mpr hne
  have hlayout := calculate_grid_layout_eq all_images.length maxCols hn hmc
  have h2 : (calculate_grid_layout all_images.length maxCols).2 =
      min maxCols all_images.length := by rw [hlayout]
  have h1 : (calculate_grid_layout all_images.length maxCols).1 =
      cdiv all_images.length (min maxCols all_images.length) := by rw [hlayout]
  have hpos' : ∀ e ∈ (all_images.zip image_labels).enum,
      cellFit cW cH e.2.1.1 e.2.1.2 := by
    intro e he
    have hz : (all_images.zip image_labels)[e.1]? = some e.2 :=
      List.mem_enum_iff_getElem?.mp he
    have hmem : e.2 ∈ all_images.zip image_labels := mem_of_getElem?_eq hz
    exact hpos _ (List.of_mem_zip hmem).1
  obtain ⟨cs, hcs, hlen, hidx⟩ :=
    place_all_ok (calculate_grid_layout all_images.length maxCols).2
      cW cH ((all_images.zip image_labels).enum) hpos'
  refine ⟨⟨(calculate_grid_layout all_images.length maxCols).2 * (cW + margin) + margin,
           (calculate_grid_layout all_images.length maxCols).1 * (cH + margin) + margin,
           cs⟩, ?_, ?_, ?_, ?_, ?_⟩
  · unfold merge_images_to_grid
    rw [if_neg (by simp [List.isEmpty_iff, hne])]
    simp only [hcs]
  · rw [h2]
  · rw [h1, h2]
  · rw [hlen, List.enum_length]
  · intro k c hk
    have hk' : k < cs.length := (List.getElem?_eq_some.mp hk).1
    have hklt : k < (all_images.zip image_labels).length := by
      rw [← List.enum_length (l := all_images.zip image_labels), ← hlen]
      exact hk'
    obtain ⟨z, hz⟩ : ∃ z, (all_images.zip image_labels)[k]? = some z :=
      ⟨_, List.getElem?_eq_getElem hklt⟩
    have henum : (all_images.zip image_labels).enum[k]? = some (k, z) := by
      rw [List.getElem?_enum, hz]
      rfl
    obtain ⟨c', hc', hplace⟩ := hidx k _ henum
    have hcc : c' = c := Option.some.inj (hc'.symm.trans hk)
    subst hcc
    have hmem : z ∈ all_images.zip image_labels := mem_of_getElem?_eq hz
    refine ⟨z.1.1, z.1.2, z.2, ?_, ?_, ?_⟩
    · rw [hz]
    · exact hpos _ (List.of_mem_zip hmem).1
    · rw [← h2]
      exact hplace

end Grid

namespace Grid

/-- Bounds on a successfully placed cell: with `cell_width > 4` and
`cell_height > 54` the labeled image fits the cell and the centered paste
offsets are nonnegative. -/
theorem place_image_bounds (cols cell_width cell_height i w h : ℕ) (lbl : Label)
    (c : Cell) (hfit : cellFit cell_width cell_height w h)
    (hcW : 4 < cell_width) (hcH : 54 < cell_height)
    (hplace : place_image cols cell_width cell_height i (w, h) lbl = .ok c) :
    c.x = (i % cols) * (cell_width + margin) + margin ∧
    c.y = (i / cols) * (cell_height + margin) + margin ∧
    0 ≤ c.labeled_width ∧ c.labeled_width ≤ (cell_width : ℤ) ∧
    0 ≤ c.labeled_height ∧ c.labeled_height ≤ (cell_height : ℤ) ∧
    0 ≤ c.paste_x ∧ 0 ≤ c.paste_y := by
  obtain ⟨hw, hh, h1, h2⟩ := cellFit_elim hfit
  have hrec := place_image_ok cols cell_width cell_height i w h lbl hfit
  have hc : c = _ := Except.ok.inj (hplace.symm.trans hrec)
  subst hc
  have hbw : (border_width : ℚ) = 2 := by norm_num [border_width]
  have hcW' : (4 : ℚ) < (cell_width : ℚ) := by exact_mod_cast hcW
  have hcH' : (54 : ℚ) < (cell_height : ℚ) := by exact_mod_cast hcH
  have htW : (0 : ℚ) < (cell_width : ℚ) - ↑border_width * 2 := by rw [hbw]; linarith
  have htH : (0 : ℚ) < (cell_height : ℚ) - ↑border_width * 2 - 50 := by
    rw [hbw]; linarith
  have hs0 : 0 ≤ fitScale w h ((cell_width : ℚ) - ↑border_width * 2)
      ((cell_height : ℚ) - ↑border_width * 2 - 50) :=
    le_of_lt (fitScale_pos hw hh htW htH)
  have hwq : (0 : ℚ) ≤ (w : ℚ) * fitScale w h ((cell_width : ℚ) - ↑border_width * 2)
      ((cell_height : ℚ) - ↑border_width * 2 - 50) :=
    mul_nonneg (by positivity) hs0
  have hhq : (0 : ℚ) ≤ (h : ℚ) * fitScale w h ((cell_width : ℚ) - ↑border_width * 2)
      ((cell_height : ℚ) - ↑border_width * 2 - 50) :=
    mul_nonneg (by positivity) hs0
  have hW0 : 0 ≤ pyInt ((w : ℚ) * fitScale w h ((cell_width : ℚ) - ↑border_width * 2)
      ((cell_height : ℚ) - ↑border_width * 2 - 50)) := pyInt_nonneg hwq
  have hH0 : 0 ≤ pyInt ((h : ℚ) * fitScale w h ((cell_width : ℚ) - ↑border_width * 2)
      ((cell_height : ℚ) - ↑border_width * 2 - 50)) := pyInt_nonneg hhq
  have hW1 : ((pyInt ((w : ℚ) * fitScale w h ((cell_width : ℚ) - ↑border_width * 2)
      ((cell_height : ℚ) - ↑border_width * 2 - 50)) : ℤ) : ℚ) ≤
      (cell_width : ℚ) - ↑border_width * 2 :=
    le_trans (pyInt_cast_le hwq) (fitScale_mul_w_le hw hh)
  have hH1 : ((pyInt ((h : ℚ) * fitScale w h ((cell_width : ℚ) - ↑border_width * 2)
      ((cell_height : ℚ) - ↑border_width * 2 - 50)) : ℤ) : ℚ) ≤
      (cell_height : ℚ) - ↑border_width * 2 - 50 :=
    le_trans (pyInt_cast_le hhq) (fitScale_mul_h_le hw hh)
  have hWz : pyInt ((w : ℚ) * fitScale w h ((cell_width : ℚ) - ↑border_width * 2)
      ((cell_height : ℚ) - ↑border_width * 2 - 50)) ≤ (cell_width : ℤ) - 4 := by
    have hq : ((pyInt ((w : ℚ) * fitScale w h ((cell_width : ℚ) - ↑border_width * 2)
        ((cell_height : ℚ) - ↑border_width * 2 - 50)) : ℤ) : ℚ) ≤ (cell_width : ℚ) - 4 := by
      linarith
    exact_mod_cast hq
  have hHz : pyInt ((h : ℚ) * fitScale w h ((cell_width : ℚ) - ↑border_width * 2)
      ((cell_height : ℚ) - ↑border_width * 2 - 50)) ≤ (cell_height : ℤ) - 54 := by
    have hq : ((pyInt ((h : ℚ) * fitScale w h ((cell_width : ℚ) - ↑border_width * 2)
        ((cell_height : ℚ) - ↑border_width * 2 - 50)) : ℤ) : ℚ) ≤ (cell_height : ℚ) - 54 := by
      linarith
    exact_mod_cast hq
  have h44 : ((label_height 24 : ℕ) : ℤ) = 44 := by norm_num [label_height]
  refine ⟨rfl, rfl, ?_, ?_, ?_, ?_, ?_, ?_⟩ <;> dsimp only
  · exact hW0
  · omega
  · omega
  · omega
  · exact Int.fdiv_nonneg (by omega) (by omega)
  · exact Int.fdiv_nonneg (by omega) (by omega)

end Grid

/-- C10 (corrected): in the grid variant (margin 20, border width 2, label
band `24 + 20 = 44` with 50 pixels reserved in the fit target), for
`cellWidth > 4`, `cellHeight > 54` and source images that each fit their
cell's resize target (without that proviso a single extreme aspect ratio
makes `img.resize` raise `ValueError` and no canvas is produced — see the
counterexample), every placed
resized-then-labeled image fits its cell (`labeled_width ≤ cellWidth`,
`labeled_height ≤ cellHeight`), its centered paste offsets are nonnegative,
cell `k` sits at `(k % cols * (cellWidth+margin) + margin,
k / cols * (cellHeight+margin) + margin)` with `cols = min(maxCols, N)` and
lies entirely inside the computed canvas, and distinct cells are pairwise
disjoint. -/
theorem C10_grid_cells_contained_and_disjoint (all_images : List (ℕ × ℕ))
    (image_labels : List Grid.Label) (cW cH maxCols : ℕ)
    (hne : all_images ≠ []) (hmc : 0 < maxCols)
    (hcW : 4 < cW) (hcH : 54 < cH)
    (hpos : ∀ p ∈ all_images, Grid.cellFit cW cH p.1 p.2) :
    ∃ cv : Grid.Canvas,
      Grid.merge_images_to_grid all_images image_labels cW cH maxCols =
        some (.ok cv) ∧
      (∀ (k : ℕ) (c : Grid.Cell), cv.cells[k]? = some c →
        c.x = (k % (min maxCols all_images.length)) * (cW + Grid.margin) + Grid.margin ∧
        c.y = (k / (min maxCols all_images.length)) * (cH + Grid.margin) + Grid.margin ∧
        0 ≤ c.labeled_width ∧ c.labeled_width ≤ (cW : ℤ) ∧
        0 ≤ c.labeled_height ∧ c.labeled_height ≤ (cH : ℤ) ∧
        0 ≤ c.paste_x ∧ 0 ≤ c.paste_y ∧
        c.x + cW ≤ cv.width ∧ c.y + cH ≤ cv.height) ∧
      (∀ (k1 k2 : ℕ) (c1 c2 : Grid.Cell), cv.cells[k1]? = some c1 →
        cv.cells[k2]? = some c2 → k1 ≠ k2 →
        (c1.x + cW ≤ c2.x ∨ c2.x + cW ≤ c1.x ∨
         c1.y + cH ≤ c2.y ∨ c2.y + cH ≤ c1.y)) := by
  obtain ⟨cv, hcv, hwidth, hheight, hlen, hspec⟩ :=
    Grid.merge_cells_spec all_images image_labels cW cH maxCols hne hmc hpos
  have hn : 0 < all_images.length := List.length_pos.mpr hne
  have hcols : 0 < min maxCols all_images.length := lt_min hmc hn
  have hklt : ∀ (k : ℕ) (c : Grid.Cell), cv.cells[k]? = some c →
      k < all_images.length := by
    intro k c hk
    have hk' : k < cv.cells.length := (List.getElem?_eq_some.mp hk).1
    rw [hlen, List.length_zip] at hk'
    exact lt_of_lt_of_le hk' (min_le_left _ _)
  have hper : ∀ (k : ℕ) (c : Grid.Cell), cv.cells[k]? = some c →
      c.x = (k % (min maxCols all_images.length)) * (cW + Grid.margin) + Grid.margin ∧
      c.y = (k / (min maxCols all_images.length)) * (cH + Grid.margin) + Grid.margin ∧
      0 ≤ c.labeled_width ∧ c.labeled_width ≤ (cW : ℤ) ∧
      0 ≤ c.labeled_height ∧ c.labeled_height ≤ (cH : ℤ) ∧
      0 ≤ c.paste_x ∧ 0 ≤ c.paste_y ∧
      c.x + cW ≤ cv.width ∧ c.y + cH ≤ cv.height := by
    intro k c hk
    obtain ⟨w, h, lbl, hz, hwh, hplace⟩ := hspec k c hk
    obtain ⟨hx, hy, hlw0, hlw, hlh0, hlh, hpx, hpy⟩ :=
      Grid.place_image_bounds _ cW cH k w h lbl c hwh hcW hcH hplace
    refine ⟨hx, hy, hlw0, hlw, hlh0, hlh, hpx, hpy, ?_, ?_⟩
    · rw [hx, hwidth]
      have hcol : k % (min maxCols all_images.length) <
          min maxCols all_images.length := Nat.mod_lt _ hcols
      have hstep := mul_succ_le_of_lt (s := cW + Grid.margin) hcol
      omega
    · rw [hy, hheight]
      have hkn : k < all_images.length := hklt k c hk
      have hlt : k < cdiv all_images.length (min maxCols all_images.length) *
          (min maxCols all_images.length) := by
        have hle := le_mul_cdiv all_images.length (min maxCols all_images.length) hcols
        have := Nat.mul_comm (min maxCols all_images.length)
          (cdiv all_images.length (min maxCols all_images.length))
        omega
      have hrow : k / (min maxCols all_images.length) <
          cdiv all_images.length (min maxCols all_images.length) :=
        (Nat.div_lt_iff_lt_mul hcols).mpr hlt
      have hstep := mul_succ_le_of_lt (s := cH + Grid.margin) hrow
      omega
  refine ⟨cv, hcv, hper, ?_⟩
  intro k1 k2 c1 c2 h1 h2 hne12
  obtain ⟨hx1, hy1, _⟩ := hper k1 c1 h1
  obtain ⟨hx2, hy2, _⟩ := hper k2 c2 h2
  by_cases hcoleq : k1 % (min maxCols all_images.length) =
      k2 % (min maxCols all_images.length)
  · have hrowne : k1 / (min maxCols all_images.length) ≠
        k2 / (min maxCols all_images.length) := by
      intro hroweq
      apply hne12
      have e1 := Nat.div_add_mod k1 (min maxCols all_images.length)
      have e2 := Nat.div_add_mod k2 (min maxCols all_images.length)
      rw [hroweq, hcoleq] at e1
      omega
    rcases Nat.lt_or_ge (k1 / (min maxCols all_images.length))
        (k2 / (min maxCols all_images.length)) with hlt | hge
    · right; right; left
      rw [hy1, hy2]
      have hstep := mul_succ_le_of_lt (s := cH + Grid.margin) hlt
      omega
    · have hlt2 : k2 / (min maxCols all_images.length) <
          k1 / (min maxCols all_images.length) :=
        lt_of_le_of_ne hge (fun he => hrowne he.symm)
      right; right; right
      rw [hy1, hy2]
      have hstep := mul_succ_le_of_lt (s := cH + Grid.margin) hlt2
      omega
  · rcases Nat.lt_or_ge (k1 % (min maxCols all_images.length))
        (k2 % (min maxCols all_images.length)) with hlt | hge
    · left
      rw [hx1, hx2]
      have hstep := mul_succ_le_of_lt (s := cW + Grid.margin) hlt
      omega
    · have hlt2 : k2 % (min maxCols all_images.length) <
          k1 % (min maxCols all_images.length) :=
        lt_of_le_of_ne hge (fun he => hcoleq he.symm)
      right; left
      rw [hx1, hx2]
      have hstep := mul_succ_le_of_lt (s := cW + Grid.margin) hlt2
      omega

theorem C10_grid_cells_contained_and_disjoint_witness :
    ([((10 : ℕ), (10 : ℕ))] : List (ℕ × ℕ)) ≠ [] ∧ (0 : ℕ) < 1 ∧
    (4 : ℕ) < 400 ∧ (54 : ℕ) < 500 ∧
    (∃ cv : Grid.Canvas,
      Grid.merge_images_to_grid [((10 : ℕ), (10 : ℕ))] [Grid.Label.plain [97]]
        400 500 1 = some (.ok cv) ∧
      (∀ (k : ℕ) (c : Grid.Cell), cv.cells[k]? = some c →
        c.x = (k % (min 1 ([((10 : ℕ), (10 : ℕ))] : List (ℕ × ℕ)).length)) *
          (400 + Grid.margin) + Grid.margin ∧
        c.y = (k / (min 1 ([((10 : ℕ), (10 : ℕ))] : List (ℕ × ℕ)).length)) *
          (500 + Grid.margin) + Grid.margin ∧
        0 ≤ c.labeled_width ∧ c.labeled_width ≤ ((400 : ℕ) : ℤ) ∧
        0 ≤ c.labeled_height ∧ c.labeled_height ≤ ((500 : ℕ) : ℤ) ∧
        0 ≤ c.paste_x ∧ 0 ≤ c.paste_y ∧
        c.x + 400 ≤ cv.width ∧ c.y + 500 ≤ cv.height) ∧
      (∀ (k1 k2 : ℕ) (c1 c2 : Grid.Cell), cv.cells[k1]? = some c1 →
        cv.cells[k2]? = some c2 → k1 ≠ k2 →
        (c1.x + 400 ≤ c2.x ∨ c2.x + 400 ≤ c1.x ∨
         c1.y + 500 ≤ c2.y ∨ c2.y + 500 ≤ c1.y))) :=
  ⟨by simp, by norm_num, by norm_num, by norm_num,
   C10_grid_cells_contained_and_disjoint [((10 : ℕ), (10 : ℕ))]
     [Grid.Label.plain [97]] 400 500 1 (by simp) (by norm_num) (by norm_num)
     (by norm_num)
     (by
       intro p hp
       simp at hp
       subst hp
       norm_num [Grid.cellFit, fits, pyInt, fitScale, min_def, Grid.border_width])⟩

/-- C10 counterexample: the strictly positive `1 × 10000` image in the
default `400 × 500` grid cell has its width floored to
`int(1 * 446/10000) = 0`; `img.resize` raises `ValueError`, so no cell is
ever placed and no canvas exists — the containment invariant is vacuous
there and the grid variant's claimed behavior (every image placed inside
its cell) fails without a fit proviso. -/
theorem C10_counterexample :
    Grid.merge_images_to_grid [((1 : ℕ), (10000 : ℕ))] [Grid.Label.plain [97]]
      400 500 4 = some (.error .valueError) ∧
    ¬∃ cv : Grid.Canvas,
      Grid.merge_images_to_grid [((1 : ℕ), (10000 : ℕ))] [Grid.Label.plain [97]]
        400 500 4 = some (.ok cv) := by
  have hres : Grid.resize_image_proportionally 1 10000
      (((400 : ℕ) : ℚ) - Grid.border_width * 2)
      (((500 : ℕ) : ℚ) - Grid.border_width * 2 - 50) = .error .valueError := by
    norm_num [Grid.resize_image_proportionally, pyInt, min_def, Grid.border_width]
  have hplace : Grid.place_image 1 400 500 0 (1, 10000) (Grid.Label.plain [97]) =
      .error .valueError := by
    unfold Grid.place_image
    dsimp only
    rw [hres]
  have hall : Grid.place_all 1 400 500 [(0, ((1, 10000), Grid.Label.plain [97]))] =
      .error .valueError := by
    unfold Grid.place_all
    rw [hplace]
  have hmerge : Grid.merge_images_to_grid [((1 : ℕ), (10000 : ℕ))]
      [Grid.Label.plain [97]] 400 500 4 = some (.error .valueError) := by
    unfold Grid.merge_images_to_grid
    rw [if_neg (by simp)]
    rw [show (([((1 : ℕ), (10000 : ℕ))].zip [Grid.Label.plain [97]]).enum) =
      [(0, ((1, 10000), Grid.Label.plain [97]))] from rfl]
    dsimp only
    rw [show Grid.calculate_grid_layout
      (List.length [((1 : ℕ), (10000 : ℕ))]) 4 = (1, 1) from rfl]
    dsimp only
    rw [hall]
  refine ⟨hmerge, ?_⟩
  rintro ⟨cv, hcv⟩
  rw [hmerge] at hcv
  exact Except.noConfusion (Option.some.inj hcv)

/-! ### Dual-layout variant: page composition (src/dual_layout_merger.py) -/

namespace DualLayout

/-- A source file as the dual-layout composer sees it: its filename (as
character codes) and the outcome of rasterising it — `none` when
`pdf_to_image`/`load_image` returned `None`, the image's pixel dimensions
otherwise. -/
structure SourceFile where
  name : List ℕ
  raster : Option (ℕ × ℕ)
deriving DecidableEq, Repr

/-- `process_file_to_image` (src/dual_layout_merger.py:179-202): rasterise
the file, and when an image came back resize it to the cell; `None`
propagates, and a zero native dimension raises out of the function. -/
def process_file_to_image (f : SourceFile) (cell_width cell_height : ℚ) :
    Except PyError (Option (ℤ × ℤ)) :=
  match f.raster with
  | none => .ok none
  | some (w, h) =>
    match resize_image_to_fit w h cell_width cell_height true with
    | .error e => .error e
    | .ok wh => .ok (some wh)

/-- One output page of the dual layout: what was drawn in the upper and
lower cells (filename and drawn size), `none` for a blank cell. -/
structure Page where
  upper : Option (List ℕ × (ℤ × ℤ))
  lower : Option (List ℕ × (ℤ × ℤ))
deriving DecidableEq, Repr

/-- One slot of the page loop (src/dual_layout_merger.py:233-280): the
`if file_index < len(all_files)` guard followed by
`process_file_to_image`; the cell stays blank when the index is out of
range or no image was produced. -/
def fill_slot (files : List SourceFile) (cell_width cell_height : ℚ)
    (idx : ℕ) : Except PyError (Option (List ℕ × (ℤ × ℤ))) :=
  match files[idx]? with
  | none => .ok none
  | some f =>
    match process_file_to_image f cell_width cell_height with
    | .error e => .error e
    | .ok none => .ok none
    | .ok (some wh) => .ok (some (f.name, wh))

/-- The page loop of `create_dual_layout_pdf`
(src/dual_layout_merger.py:225-291) over the list of page indices: page `p`
draws file `p*2` in the upper cell and file `p*2 + 1` in the lower cell. -/
def build_pages (files : List SourceFile) (cell_width cell_height : ℚ) :
    List ℕ → Except PyError (List Page)
  | [] => .ok []
  | p :: ps =>
    match fill_slot files cell_width cell_height (p * 2) with
    | .error e => .error e
    | .ok u =>
      match fill_slot files cell_width cell_height (p * 2 + 1) with
      | .error e => .error e
      | .ok l =>
        match build_pages files cell_width cell_height ps with
        | .error e => .error e
        | .ok pages => .ok (⟨u, l⟩ :: pages)

/-- `create_dual_layout_pdf` (src/dual_layout_merger.py:204-294): an empty
input list returns without creating a file (`none`); otherwise
`total_pages = ceil(len(all_files)/2)` pages are composed. -/
def create_dual_layout_pdf (files : List SourceFile) (cell_width cell_height : ℚ) :
    Option (Except PyError (List Page)) :=
  if files.isEmpty then none
  else some (build_pages files cell_width cell_height
    (List.range (cdiv files.length 2)))

/-- `process_all_files` (src/dual_layout_merger.py:296-319): returns without
producing an output file when the enumerated list is empty, otherwise
composes the dual-layout document. -/
def process_all_files (files : List SourceFile) (cell_width cell_height : ℚ) :
    Option (Except PyError (List Page)) :=
  if files.isEmpty then none
  else create_dual_layout_pdf files cell_width cell_height

/-- Derived closed form of a filled slot (proved to agree with `fill_slot`
below): the file's name together with its fitted size, `none` when
rasterisation failed. -/
def slot_content (cell_width cell_height : ℚ) (f : SourceFile) :
    Option (List ℕ × (ℤ × ℤ)) :=
  f.raster.map fun wh =>
    (f.name, (pyInt (wh.1 * fitScale wh.1 wh.2 cell_width cell_height),
              pyInt (wh.2 * fitScale wh.1 wh.2 cell_width cell_height)))

theorem fill_slot_eq (files : List SourceFile) (cell_width cell_height : ℚ)
    (idx : ℕ)
    (hpos : ∀ f ∈ files, ∀ w h, f.raster = some (w, h) →
      fits w h cell_width cell_height) :
    fill_slot files cell_width cell_height idx =
      .ok ((files[idx]?).bind (slot_content cell_width cell_height)) := by
  unfold fill_slot
  cases hidx : files[idx]? with
  | none => rfl
  | some f =>
    have hf : f ∈ files := mem_of_getElem?_eq hidx
    cases hr : f.raster with
    | none => simp [process_file_to_image, slot_content, hr]
    | some wh =>
      obtain ⟨w, h⟩ := wh
      obtain ⟨hw, hh, h1, h2⟩ := fits_elim (hpos f hf w h hr)
      simp [process_file_to_image, slot_content, hr,
        dual_resize_eq_scaled cell_width cell_height hw hh h1 h2]

theorem build_pages_eq (files : List SourceFile) (cell_width cell_height : ℚ)
    (hpos : ∀ f ∈ files, ∀ w h, f.raster = some (w, h) →
      fits w h cell_width cell_height)
    (ps : List ℕ) :
    build_pages files cell_width cell_height ps =
      .ok (ps.map fun p =>
        { upper := (files[p * 2]?).bind (slot_content cell_width cell_height),
          lower := (files[p * 2 + 1]?).bind (slot_content cell_width cell_height) }) := by
  induction ps with
  | nil => rfl
  | cons p ps ih =>
    show build_pages files cell_width cell_height (p :: ps) = _
    unfold build_pages
    rw [fill_slot_eq files cell_width cell_height (p * 2) hpos,
        fill_slot_eq files cell_width cell_height (p * 2 + 1) hpos, ih]
    rfl

end DualLayout

/-- C4 (corrected): with the enumerated list of `N` input files, each of
whose rasterised images fits the cell, the dual-slot variant produces
exactly `ceil(N/2)` pages, page `p` drawing file `p*2` in the upper cell
and file `p*2+1` in the lower cell (so the first item of each pair is the
upper one); for `N = 0` no output file is produced at all; for odd `N` the
final page's lower cell is empty.  Without the fit proviso the claim
fails: one image whose floored scaled dimension drops below 1 makes
`img.resize` raise `ValueError`, which propagates out of
`create_dual_layout_pdf` and aborts the whole run with no pages at all
(see the counterexample). -/
theorem C4_dual_slot_pagination (files : List DualLayout.SourceFile) (cW cH : ℚ)
    (hpos : ∀ f ∈ files, ∀ w h : ℕ, f.raster = some (w, h) → fits w h cW cH) :
    (files = [] → DualLayout.process_all_files files cW cH = none ∧
      DualLayout.create_dual_layout_pdf files cW cH = none) ∧
    (files ≠ [] → ∃ pages : List DualLayout.Page,
      DualLayout.create_dual_layout_pdf files cW cH = some (.ok pages) ∧
      DualLayout.process_all_files files cW cH = some (.ok pages) ∧
      pages.length = cdiv files.length 2 ∧
      (∀ (p : ℕ) (pg : DualLayout.Page), pages[p]? = some pg →
        pg.upper = (files[p * 2]?).bind (DualLayout.slot_content cW cH) ∧
        pg.lower = (files[p * 2 + 1]?).bind (DualLayout.slot_content cW cH)) ∧
      (files.length % 2 = 1 →
        ∃ pg : DualLayout.Page, pages[pages.length - 1]? = some pg ∧
          pg.lower = none)) := by
  have hkval : cdiv files.length 2 = (files.length + 1) / 2 := rfl
  constructor
  · intro hempty
    subst hempty
    exact ⟨rfl, rfl⟩
  · intro hne
    have hemp : files.isEmpty = false := by simp [List.isEmpty_iff, hne]
    have hb := DualLayout.build_pages_eq files cW cH hpos
      (List.range (cdiv files.length 2))
    refine ⟨(List.range (cdiv files.length 2)).map fun p =>
      ({ upper := (files[p * 2]?).bind (DualLayout.slot_content cW cH),
         lower := (files[p * 2 + 1]?).bind (DualLayout.slot_content cW cH) } :
        DualLayout.Page), ?_, ?_, ?_, ?_, ?_⟩
    · simp only [DualLayout.create_dual_layout_pdf, hemp, Bool.false_eq_true,
        if_false, hb]
    · simp only [DualLayout.process_all_files, DualLayout.create_dual_layout_pdf,
        hemp, Bool.false_eq_true, if_false, hb]
    · simp
    · intro p pg hpg
      rw [List.getElem?_map] at hpg
      by_cases hp : p < cdiv files.length 2
      · rw [List.getElem?_range hp] at hpg
        injection hpg with h
        subst h
        exact ⟨rfl, rfl⟩
      · rw [List.getElem?_eq_none (by simpa using hp)] at hpg
        simp at hpg
    · intro hodd
      have hn : 0 < files.length := List.length_pos.mpr hne
      have hk : 0 < cdiv files.length 2 := by omega
      have hk1 : cdiv files.length 2 - 1 < cdiv files.length 2 := by omega
      have hlen : ((List.range (cdiv files.length 2)).map fun p =>
          ({ upper := (files[p * 2]?).bind (DualLayout.slot_content cW cH),
             lower := (files[p * 2 + 1]?).bind (DualLayout.slot_content cW cH) } :
            DualLayout.Page)).length = cdiv files.length 2 := by simp
      rw [hlen]
      refine ⟨⟨(files[(cdiv files.length 2 - 1) * 2]?).bind
          (DualLayout.slot_content cW cH),
        (files[(cdiv files.length 2 - 1) * 2 + 1]?).bind
          (DualLayout.slot_content cW cH)⟩, ?_, ?_⟩
      · rw [List.getElem?_map, List.getElem?_range hk1]
        rfl
      · show ((files[(cdiv files.length 2 - 1) * 2 + 1]?).bind
          (DualLayout.slot_content cW cH)) = none
        have hout : files.length ≤ (cdiv files.length 2 - 1) * 2 + 1 := by omega
        rw [List.getElem?_eq_none hout]
        rfl

/-- C4 counterexample: a single file whose `100 × 1` raster is fitted into
a `60 × 60` cell floors its height to `int(0.6) = 0`; `img.resize` raises
`ValueError` and the whole dual-layout run aborts — no list of pages is
produced, refuting the unconditional `ceil(N/2)`-pages claim. -/
theorem C4_counterexample :
    DualLayout.create_dual_layout_pdf
      [⟨[97], some (100, 1)⟩] 60 60 = some (.error .valueError) ∧
    ¬∃ pages : List DualLayout.Page,
      DualLayout.create_dual_layout_pdf [⟨[97], some (100, 1)⟩] 60 60 =
        some (.ok pages) := by
  have hres : DualLayout.resize_image_to_fit 100 1 60 60 true =
      .error .valueError := by
    norm_num [DualLayout.resize_image_to_fit, pyInt, min_def]
  have hslot : DualLayout.fill_slot [⟨[97], some (100, 1)⟩] 60 60 0 =
      .error .valueError := by
    unfold DualLayout.fill_slot
    simp only [List.getElem?_cons_zero]
    simp only [DualLayout.process_file_to_image, hres]
  have hpages : DualLayout.build_pages [⟨[97], some (100, 1)⟩] 60 60 [0] =
      .error .valueError := by
    unfold DualLayout.build_pages
    simp only [Nat.zero_mul]
    rw [hslot]
  have hcreate : DualLayout.create_dual_layout_pdf [⟨[97], some (100, 1)⟩] 60 60 =
      some (.error .valueError) := by
    unfold DualLayout.create_dual_layout_pdf
    rw [if_neg (by simp)]
    rw [show List.range (cdiv
      (List.length [(⟨[97], some (100, 1)⟩ : DualLayout.SourceFile)]) 2) = [0]
      from rfl]
    rw [hpages]
  refine ⟨hcreate, ?_⟩
  rintro ⟨pages, hpg⟩
  rw [hcreate] at hpg
  exact Except.noConfusion (Option.some.inj hpg)

theorem C4_dual_slot_pagination_witness :
    (∀ f ∈ ([⟨[97], some (3, 4)⟩] : List DualLayout.SourceFile), ∀ w h : ℕ,
      f.raster = some (w, h) → fits w h 5 7) ∧
    ((([⟨[97], some (3, 4)⟩] : List DualLayout.SourceFile) = [] →
      DualLayout.process_all_files [⟨[97], some (3, 4)⟩] 5 7 = none ∧
      DualLayout.create_dual_layout_pdf [⟨[97], some (3, 4)⟩] 5 7 = none) ∧
    (([⟨[97], some (3, 4)⟩] : List DualLayout.SourceFile) ≠ [] →
      ∃ pages : List DualLayout.Page,
      DualLayout.create_dual_layout_pdf [⟨[97], some (3, 4)⟩] 5 7 =
        some (.ok pages) ∧
      DualLayout.process_all_files [⟨[97], some (3, 4)⟩] 5 7 =
        some (.ok pages) ∧
      pages.length =
        cdiv ([⟨[97], some (3, 4)⟩] : List DualLayout.SourceFile).length 2 ∧
      (∀ (p : ℕ) (pg : DualLayout.Page), pages[p]? = some pg →
        pg.upper = ((([⟨[97], some (3, 4)⟩] : List DualLayout.SourceFile))[p * 2]?).bind
          (DualLayout.slot_content 5 7) ∧
        pg.lower = ((([⟨[97], some (3, 4)⟩] : List DualLayout.SourceFile))[p * 2 + 1]?).bind
          (DualLayout.slot_content 5 7)) ∧
      (([⟨[97], some (3, 4)⟩] : List DualLayout.SourceFile).length % 2 = 1 →
        ∃ pg : DualLayout.Page, pages[pages.length - 1]? = some pg ∧
          pg.lower = none))) := by
  have hyp : ∀ f ∈ ([⟨[97], some (3, 4)⟩] : List DualLayout.SourceFile),
      ∀ w h : ℕ, f.raster = some (w, h) → fits w h 5 7 := by
    intro f hf w h hr
    simp at hf
    subst hf
    simp at hr
    obtain ⟨rfl, rfl⟩ := hr
    norm_num [fits, pyInt, fitScale, min_def]
  exact ⟨hyp, C4_dual_slot_pagination [⟨[97], some (3, 4)⟩] 5 7 hyp⟩

/-! ### Paired variant: page composition (src/pdf_merger.py) -/

namespace PdfMerger

/-- One paired output page: the drawn PDF image (upper half, absent when
PDF rasterisation failed) and the drawn verification image (lower half),
each with its drawn size and position. -/
structure PairedPage where
  upper : Option ((ℤ × ℤ) × (ℚ × ℚ))
  lower : (ℤ × ℤ) × (ℚ × ℚ)
deriving DecidableEq, Repr

/-- `merge_pdf_and_image` (src/pdf_merger.py:108-182): `half_height =
page_height/2`, `margin = 20`; the PDF's first page, if it rasterised
(`pdf_to_image` returning `None` leaves the upper half empty), and the
verification image are each fitted into
`(page_width - 2*margin, half_height - margin)` and centered in their
halves.  `Image.open` raises when the verification image cannot be
decoded; that exception — like a zero-dimension resize — is caught by the
enclosing handler which returns `False`: no output page (`none`). -/
def merge_pdf_and_image (pdf_raster verify_raster : Option (ℕ × ℕ))
    (page_width page_height : ℚ) : Option PairedPage :=
  let half_height := page_height / 2
  let margin : ℚ := 20
  let upper_result : Except PyError (Option ((ℤ × ℤ) × (ℚ × ℚ))) :=
    match pdf_raster with
    | none => .ok none
    | some (w, h) =>
      match resize_image_to_fit w h (page_width - 2 * margin)
          (half_height - margin) with
      | .error e => .error e
      | .ok (rw, rh) => .ok (some ((rw, rh),
          ((page_width - rw) / 2, half_height + (half_height - rh) / 2)))
  match upper_result, verify_raster with
  | .error _, _ => none
  | .ok _, none => none
  | .ok u, some (vw, vh) =>
    match resize_image_to_fit vw vh (page_width - 2 * margin)
        (half_height - margin) with
    | .error _ => none
    | .ok (rw, rh) => some ⟨u, ((rw, rh),
        ((page_width - rw) / 2, (half_height - rh) / 2))⟩

/-- The loop of `process_all` (src/pdf_merger.py:197-203): every pair is
attempted regardless of earlier failures; each yields the output name
stem and the merge outcome. -/
def process_all_pairs (pairs : List ((List ℕ × Option (ℕ × ℕ)) × Option (ℕ × ℕ)))
    (page_width page_height : ℚ) : List (List ℕ × Option PairedPage) :=
  pairs.map fun pr =>
    (pr.1.1, merge_pdf_and_image pr.1.2 pr.2 page_width page_height)

end PdfMerger

/-- C3 (corrected): a single item that fails to rasterize never aborts a
run.  Dual-slot: the page count is unchanged, the failing item's cell is
left blank, and every other item's slot still carries its content.  Grid:
the failing file contributes nothing to the collected sequence, which
compacts with no gap.  Paired: a failing PDF leaves the upper cell blank
with the page still produced, but a failing verification image drops that
pair's page entirely (`merge_pdf_and_image` returns `none` — see the
counterexample); every pair is still attempted.  (Throughout, items that do
rasterize are assumed to fit their cell's resize target, since a
non-fitting image raises `ValueError` — a separate failure mode from
rasterisation, covered by C1/C4/C5.) -/
theorem C3_skip_on_rasterize_failure (before after : List DualLayout.SourceFile)
    (bad : DualLayout.SourceFile) (cW cH : ℚ)
    (hbad : bad.raster = none)
    (hpos : ∀ f ∈ before ++ bad :: after, ∀ w h : ℕ,
      f.raster = some (w, h) → fits w h cW cH) :
    (∃ pages : List DualLayout.Page,
      DualLayout.create_dual_layout_pdf (before ++ bad :: after) cW cH =
        some (.ok pages) ∧
      pages.length = cdiv (before ++ bad :: after).length 2 ∧
      (∀ (j : ℕ) (f : DualLayout.SourceFile),
        (before ++ bad :: after)[j]? = some f →
        (if j % 2 = 0 then (pages[j / 2]?).bind DualLayout.Page.upper
         else (pages[j / 2]?).bind DualLayout.Page.lower) =
          DualLayout.slot_content cW cH f) ∧
      (if before.length % 2 = 0 then
        (pages[before.length / 2]?).bind DualLayout.Page.upper
       else (pages[before.length / 2]?).bind DualLayout.Page.lower) = none) ∧
    (∀ (gb ga : List Grid.PdfFile) (gbad : Grid.PdfFile), gbad.pages = none →
      Grid.collect_images (gb ++ gbad :: ga) =
        Grid.collect_images gb ++ Grid.collect_images ga) ∧
    ((∀ (vw vh : ℕ) (pW pH : ℚ), fits vw vh (pW - 2 * 20) (pH / 2 - 20) →
      ∃ pg : PdfMerger.PairedPage,
        PdfMerger.merge_pdf_and_image none (some (vw, vh)) pW pH = some pg ∧
        pg.upper = none) ∧
     (∀ (pdfR : Option (ℕ × ℕ)) (pW pH : ℚ),
        PdfMerger.merge_pdf_and_image pdfR none pW pH = none) ∧
     (∀ (pairs : List ((List ℕ × Option (ℕ × ℕ)) × Option (ℕ × ℕ))) (pW pH : ℚ),
        (PdfMerger.process_all_pairs pairs pW pH).length = pairs.length)) := by
  refine ⟨?_, ?_, ?_, ?_, ?_⟩
  · -- dual-slot part
    have hb := DualLayout.build_pages_eq (before ++ bad :: after) cW cH hpos
      (List.range (cdiv (before ++ bad :: after).length 2))
    refine ⟨(List.range (cdiv (before ++ bad :: after).length 2)).map fun p =>
      ({ upper := ((before ++ bad :: after)[p * 2]?).bind
          (DualLayout.slot_content cW cH),
         lower := ((before ++ bad :: after)[p * 2 + 1]?).bind
          (DualLayout.slot_content cW cH) } : DualLayout.Page), ?_, ?_, ?_, ?_⟩
    · simp only [DualLayout.create_dual_layout_pdf,
        (show (before ++ bad :: after).isEmpty = false by simp),
        Bool.false_eq_true, if_false, hb]
    · simp
    · intro j f hj
      have hjlt : j < (before ++ bad :: after).length :=
        (List.getElem?_eq_some.mp hj).1
      have hcd : cdiv (before ++ bad :: after).length 2 =
          ((before ++ bad :: after).length + 1) / 2 := rfl
      have hjp : j / 2 < cdiv (before ++ bad :: after).length 2 := by omega
      by_cases hpar : j % 2 = 0
      · rw [if_pos hpar, List.getElem?_map, List.getElem?_range hjp]
        show ((before ++ bad :: after)[j / 2 * 2]?).bind
          (DualLayout.slot_content cW cH) = _
        have h2 : j / 2 * 2 = j := by omega
        rw [h2, hj]
        rfl
      · rw [if_neg hpar, List.getElem?_map, List.getElem?_range hjp]
        show ((before ++ bad :: after)[j / 2 * 2 + 1]?).bind
          (DualLayout.slot_content cW cH) = _
        have h2 : j / 2 * 2 + 1 = j := by omega
        rw [h2, hj]
        rfl
    · have hjbad : (before ++ bad :: after)[before.length]? = some bad := by
        rw [List.getElem?_append_right (le_refl _)]
        simp
      have hjlt : before.length < (before ++ bad :: after).length := by simp
      have hcd : cdiv (before ++ bad :: after).length 2 =
          ((before ++ bad :: after).length + 1) / 2 := rfl
      have hjp : before.length / 2 < cdiv (before ++ bad :: after).length 2 := by
        omega
      by_cases hpar : before.length % 2 = 0
      · rw [if_pos hpar, List.getElem?_map, List.getElem?_range hjp]
        show ((before ++ bad :: after)[before.length / 2 * 2]?).bind
          (DualLayout.slot_content cW cH) = none
        have h2 : before.length / 2 * 2 = before.length := by omega
        rw [h2, hjbad]
        simp [DualLayout.slot_content, hbad]
      · rw [if_neg hpar, List.getElem?_map, List.getElem?_range hjp]
        show ((before ++ bad :: after)[before.length / 2 * 2 + 1]?).bind
          (DualLayout.slot_content cW cH) = none
        have h2 : before.length / 2 * 2 + 1 = before.length := by omega
        rw [h2, hjbad]
        simp [DualLayout.slot_content, hbad]
  · intro gb ga gbad hgbad
    simp [Grid.collect_images, List.flatMap_append, List.flatMap_cons,
      Grid.convert_pdf_to_images, hgbad]
  · intro vw vh pW pH hfit
    obtain ⟨hvw, hvh, h1, h2⟩ := fits_elim hfit
    have hres := pdfm_resize_eq_scaled (pW - 2 * 20) (pH / 2 - 20) hvw hvh h1 h2
    simp only [PdfMerger.merge_pdf_and_image, hres]
    exact ⟨_, rfl, rfl⟩
  · intro pdfR pW pH
    cases pdfR with
    | none => rfl
    | some wh =>
      obtain ⟨w, h⟩ := wh
      cases hres : PdfMerger.resize_image_to_fit w h (pW - 2 * 20)
          (pH / 2 - 20) with
      | error e => simp [PdfMerger.merge_pdf_and_image, hres]
      | ok rr =>
        obtain ⟨a, b⟩ := rr
        simp [PdfMerger.merge_pdf_and_image, hres]
  · intro pairs pW pH
    simp [PdfMerger.process_all_pairs]

/-- C3 counterexample: in the paired variant, a pair whose verification
image fails to decode produces no output page at all — the failing item's
cell is not "left blank while the page is still produced", the whole
page is dropped (the PDF half had rasterised fine, 10×10 here). -/
theorem C3_counterexample :
    PdfMerger.merge_pdf_and_image (some (10, 10)) none 595 842 = none ∧
    ¬ ∃ pg : PdfMerger.PairedPage,
      PdfMerger.merge_pdf_and_image (some (10, 10)) none 595 842 = some pg := by
  have hres : PdfMerger.resize_image_to_fit 10 10 ((595 : ℚ) - 2 * 20)
      ((842 : ℚ) / 2 - 20) = .ok (401, 401) := by
    norm_num [PdfMerger.resize_image_to_fit, pyInt, min_def]
  have hnone : PdfMerger.merge_pdf_and_image (some (10, 10)) none 595 842 =
      none := by
    simp only [PdfMerger.merge_pdf_and_image, hres]
  refine ⟨hnone, ?_⟩
  rintro ⟨pg, hpg⟩
  rw [hnone] at hpg
  exact Option.noConfusion hpg

theorem C3_skip_on_rasterize_failure_witness :
    (⟨[98], none⟩ : DualLayout.SourceFile).raster = none ∧
    ((∃ pages : List DualLayout.Page,
      DualLayout.create_dual_layout_pdf
        (([⟨[97], some (3, 4)⟩] : List DualLayout.SourceFile) ++ (⟨[98], none⟩ : DualLayout.SourceFile) :: []) 5 7 =
        some (.ok pages) ∧
      pages.length =
        cdiv (([⟨[97], some (3, 4)⟩] : List DualLayout.SourceFile) ++
          (⟨[98], none⟩ : DualLayout.SourceFile) :: []).length 2 ∧
      (∀ (j : ℕ) (f : DualLayout.SourceFile),
        (([⟨[97], some (3, 4)⟩] : List DualLayout.SourceFile) ++
          (⟨[98], none⟩ : DualLayout.SourceFile) :: [])[j]? = some f →
        (if j % 2 = 0 then (pages[j / 2]?).bind DualLayout.Page.upper
         else (pages[j / 2]?).bind DualLayout.Page.lower) =
          DualLayout.slot_content 5 7 f) ∧
      (if ([⟨[97], some (3, 4)⟩] : List DualLayout.SourceFile).length % 2 = 0 then
        (pages[([⟨[97], some (3, 4)⟩] : List DualLayout.SourceFile).length / 2]?).bind
          DualLayout.Page.upper
       else
        (pages[([⟨[97], some (3, 4)⟩] : List DualLayout.SourceFile).length / 2]?).bind
          DualLayout.Page.lower) = none) ∧
    (∀ (gb ga : List Grid.PdfFile) (gbad : Grid.PdfFile), gbad.pages = none →
      Grid.collect_images (gb ++ gbad :: ga) =
        Grid.collect_images gb ++ Grid.collect_images ga) ∧
    ((∀ (vw vh : ℕ) (pW pH : ℚ), fits vw vh (pW - 2 * 20) (pH / 2 - 20) →
      ∃ pg : PdfMerger.PairedPage,
        PdfMerger.merge_pdf_and_image none (some (vw, vh)) pW pH = some pg ∧
        pg.upper = none) ∧
     (∀ (pdfR : Option (ℕ × ℕ)) (pW pH : ℚ),
        PdfMerger.merge_pdf_and_image pdfR none pW pH = none) ∧
     (∀ (pairs : List ((List ℕ × Option (ℕ × ℕ)) × Option (ℕ × ℕ))) (pW pH : ℚ),
        (PdfMerger.process_all_pairs pairs pW pH).length = pairs.length))) := by
  have hbad : (⟨[98], none⟩ : DualLayout.SourceFile).raster = none := rfl
  have hpos : ∀ f ∈ ([⟨[97], some (3, 4)⟩] : List DualLayout.SourceFile) ++
      (⟨[98], none⟩ : DualLayout.SourceFile) :: [], ∀ w h : ℕ,
      f.raster = some (w, h) → fits w h 5 7 := by
    intro f hf w h hr
    simp at hf
    rcases hf with rfl | rfl
    · simp at hr
      obtain ⟨rfl, rfl⟩ := hr
      norm_num [fits, pyInt, fitScale, min_def]
    · simp at hr
  exact ⟨hbad, C3_skip_on_rasterize_failure [⟨[97], some (3, 4)⟩] []
    ⟨[98], none⟩ 5 7 hbad hpos⟩

/-! ### Paired variant: enumeration and pairing (src/pdf_merger.py) -/

namespace PdfMerger

/-- A directory entry: filename stem and suffix (including the dot), as
character-code lists; the filename is `stem ++ suffix`. -/
structure FileEntry where
  stem : List ℕ
  suffix : List ℕ
deriving DecidableEq, Repr

/-- Python `str.lower` on an ASCII character code. -/
def lower_code (c : ℕ) : ℕ := if 65 ≤ c ∧ c ≤ 90 then c + 32 else c

/-- Python `str.lower` on a string of character codes. -/
def lower (s : List ℕ) : List ℕ := s.map lower_code

/-- The character codes of `".pdf"`. -/
def pdf_suffix : List ℕ := [46, 112, 100, 102]

/-- The character codes of `supported_image_formats`
(src/pdf_merger.py:24): `.png`, `.jpg`, `.jpeg`, `.bmp`, `.tiff`, `.gif`. -/
def image_suffixes : List (List ℕ) :=
  [[46, 112, 110, 103], [46, 106, 112, 103], [46, 106, 112, 101, 103],
   [46, 98, 109, 112], [46, 116, 105, 102, 102], [46, 103, 105, 102]]

/-- A Python `dict` keyed by stems, as an insertion-ordered association
list. -/
abbrev Dict := List (List ℕ × FileEntry)

/-- Python `d[k] = v`: replace the value in place when the key is present,
append otherwise. -/
def dict_set : Dict → List ℕ → FileEntry → Dict
  | [], k, v => [(k, v)]
  | (k', v') :: d, k, v =>
    if k' = k then (k', v) :: d else (k', v') :: dict_set d k v

/-- Python `k in d` / `d[k]` lookup. -/
def dict_get : Dict → List ℕ → Option FileEntry
  | [], _ => none
  | (k', v') :: d, k => if k' = k then some v' else dict_get d k

def dict_keys (d : Dict) : List (List ℕ) := d.map Prod.fst

/-- The scanning loop of `get_file_pairs` (src/pdf_merger.py:51-58): build
the `pdf_files` and `image_files` dicts keyed by stem, iterating the
directory listing in enumeration order. -/
def scan_files : List FileEntry → Dict × Dict → Dict × Dict
  | [], acc => acc
  | f :: rest, (pdfs, imgs) =>
    if lower f.suffix = pdf_suffix then
      scan_files rest (dict_set pdfs f.stem f, imgs)
    else if lower f.suffix ∈ image_suffixes then
      scan_files rest (pdfs, dict_set imgs f.stem f)
    else
      scan_files rest (pdfs, imgs)

/-- `get_file_pairs` (src/pdf_merger.py:41-70): one `(pdf, image)` pair for
each stem of the pdf dict (in dict insertion order) that also appears in
the image dict. -/
def get_file_pairs (files : List FileEntry) : List (FileEntry × FileEntry) :=
  (scan_files files ([], [])).1.filterMap fun kv =>
    match dict_get (scan_files files ([], [])).2 kv.1 with
    | some imf => some (kv.2, imf)
    | none => none

/-- The stems printed by `get_file_pairs` (`找到匹配文件对: {name}`,
src/pdf_merger.py:65) — the only per-stem reporting the paired variant
performs; unmatched stems are never mentioned. -/
def reported_stems (files : List FileEntry) : List (List ℕ) :=
  (scan_files files ([], [])).1.filterMap fun kv =>
    match dict_get (scan_files files ([], [])).2 kv.1 with
    | some _ => some kv.1
    | none => none

/-- The output files of `process_all` (src/pdf_merger.py:198), one
`<stem>_merged.pdf` per pair, encoded by the pair's pdf stem. -/
def output_stems (files : List FileEntry) : List (List ℕ) :=
  (get_file_pairs files).map fun pr => pr.1.stem

/-- The listing contains a `.pdf` entry with this stem. -/
def has_pdf (files : List FileEntry) (s : List ℕ) : Prop :=
  ∃ f ∈ files, f.stem = s ∧ lower f.suffix = pdf_suffix

/-- The listing contains an image-extension entry with this stem. -/
def has_image (files : List FileEntry) (s : List ℕ) : Prop :=
  ∃ f ∈ files, f.stem = s ∧ lower f.suffix ∈ image_suffixes

end PdfMerger

namespace PdfMerger

theorem mem_dict_keys_set (d : Dict) (k : List ℕ) (v : FileEntry) (s : List ℕ) :
    s ∈ dict_keys (dict_set d k v) ↔ s ∈ dict_keys d ∨ s = k := by
  induction d with
  | nil => simp [dict_set, dict_keys]
  | cons kv d ih =>
    obtain ⟨k', v'⟩ := kv
    by_cases hk : k' = k
    · subst hk
      rw [show dict_set ((k', v') :: d) k' v = (k', v) :: d from by
        simp [dict_set]]
      rw [show dict_keys ((k', v) :: d) = k' :: dict_keys d from rfl,
          show dict_keys ((k', v') :: d) = k' :: dict_keys d from rfl]
      simp only [List.mem_cons]
      tauto
    · rw [show dict_set ((k', v') :: d) k v = (k', v') :: dict_set d k v from by
        simp [dict_set, hk]]
      rw [show dict_keys ((k', v') :: dict_set d k v) =
            k' :: dict_keys (dict_set d k v) from rfl,
          show dict_keys ((k', v') :: d) = k' :: dict_keys d from rfl]
      simp only [List.mem_cons, ih]
      tauto

theorem nodup_dict_keys_set (d : Dict) (k : List ℕ) (v : FileEntry)
    (hd : (dict_keys d).Nodup) : (dict_keys (dict_set d k v)).Nodup := by
  induction d with
  | nil => simp [dict_set, dict_keys]
  | cons kv d ih =>
    obtain ⟨k', v'⟩ := kv
    rw [show dict_keys ((k', v') :: d) = k' :: dict_keys d from rfl,
      List.nodup_cons] at hd
    obtain ⟨hk', hnd⟩ := hd
    by_cases hk : k' = k
    · subst hk
      rw [show dict_set ((k', v') :: d) k' v = (k', v) :: d from by
        simp [dict_set]]
      rw [show dict_keys ((k', v) :: d) = k' :: dict_keys d from rfl,
        List.nodup_cons]
      exact ⟨hk', hnd⟩
    · rw [show dict_set ((k', v') :: d) k v = (k', v') :: dict_set d k v from by
        simp [dict_set, hk]]
      rw [show dict_keys ((k', v') :: dict_set d k v) =
        k' :: dict_keys (dict_set d k v) from rfl, List.nodup_cons]
      refine ⟨?_, ih hnd⟩
      intro hmem
      rcases (mem_dict_keys_set d k v k').mp hmem with h1 | h1
      · exact hk' h1
      · exact hk h1

theorem dict_get_eq_some_iff_mem (d : Dict) (s : List ℕ) :
    (∃ v, dict_get d s = some v) ↔ s ∈ dict_keys d := by
  induction d with
  | nil => simp [dict_get, dict_keys]
  | cons kv d ih =>
    obtain ⟨k', v'⟩ := kv
    by_cases hk : k' = s
    · subst hk
      simp [dict_get, dict_keys]
    · rw [show dict_get ((k', v') :: d) s = dict_get d s from by
        simp [dict_get, hk]]
      rw [show dict_keys ((k', v') :: d) = k' :: dict_keys d from rfl, ih]
      simp only [List.mem_cons]
      constructor
      · exact fun h => Or.inr h
      · rintro (h1 | h1)
        · exact absurd h1.symm hk
        · exact h1

theorem dict_set_entry_cases (d : Dict) (k : List ℕ) (v : FileEntry) :
    ∀ kv ∈ dict_set d k v, kv ∈ d ∨ kv = (k, v) := by
  induction d with
  | nil => simp [dict_set]
  | cons kv0 d ih =>
    obtain ⟨k', v'⟩ := kv0
    intro kv hkv
    by_cases hk : k' = k
    · subst hk
      rw [show dict_set ((k', v') :: d) k' v = (k', v) :: d from by
        simp [dict_set]] at hkv
      rcases List.mem_cons.mp hkv with h1 | h1
      · exact Or.inr h1
      · exact Or.inl (List.mem_cons_of_mem _ h1)
    · rw [show dict_set ((k', v') :: d) k v = (k', v') :: dict_set d k v from by
        simp [dict_set, hk]] at hkv
      rcases List.mem_cons.mp hkv with h1 | h1
      · exact Or.inl (h1 ▸ List.mem_cons_self _ _)
      · rcases ih kv h1 with h2 | h2
        · exact Or.inl (List.mem_cons_of_mem _ h2)
        · exact Or.inr h2

theorem has_pdf_cons (f : FileEntry) (rest : List FileEntry) (s : List ℕ) :
    has_pdf (f :: rest) s ↔
      (f.stem = s ∧ lower f.suffix = pdf_suffix) ∨ has_pdf rest s := by
  unfold has_pdf
  simp only [List.mem_cons]
  constructor
  · rintro ⟨g, (rfl | hg), hs, hsuf⟩
    · exact Or.inl ⟨hs, hsuf⟩
    · exact Or.inr ⟨g, hg, hs, hsuf⟩
  · rintro (⟨hs, hsuf⟩ | ⟨g, hg, hs, hsuf⟩)
    · exact ⟨f, Or.inl rfl, hs, hsuf⟩
    · exact ⟨g, Or.inr hg, hs, hsuf⟩

theorem has_image_cons (f : FileEntry) (rest : List FileEntry) (s : List ℕ) :
    has_image (f :: rest) s ↔
      (f.stem = s ∧ lower f.suffix ∈ image_suffixes) ∨ has_image rest s := by
  unfold has_image
  simp only [List.mem_cons]
  constructor
  · rintro ⟨g, (rfl | hg), hs, hsuf⟩
    · exact Or.inl ⟨hs, hsuf⟩
    · exact Or.inr ⟨g, hg, hs, hsuf⟩
  · rintro (⟨hs, hsuf⟩ | ⟨g, hg, hs, hsuf⟩)
    · exact ⟨f, Or.inl rfl, hs, hsuf⟩
    · exact ⟨g, Or.inr hg, hs, hsuf⟩

theorem pdf_suffix_not_image : pdf_suffix ∉ image_suffixes := by decide

end PdfMerger

namespace PdfMerger

theorem scan_files_pdf_keys (files : List FileEntry) :
    ∀ (acc : Dict × Dict) (s : List ℕ),
    s ∈ dict_keys (scan_files files acc).1 ↔
      s ∈ dict_keys acc.1 ∨ has_pdf files s := by
  induction files with
  | nil =>
    intro acc s
    simp [scan_files, has_pdf]
  | cons f rest ih =>
    intro acc s
    obtain ⟨pdfs, imgs⟩ := acc
    by_cases hp : lower f.suffix = pdf_suffix
    · rw [show scan_files (f :: rest) (pdfs, imgs) =
          scan_files rest (dict_set pdfs f.stem f, imgs) from by
        simp [scan_files, hp]]
      rw [ih (dict_set pdfs f.stem f, imgs) s, has_pdf_cons]
      rw [show ((dict_set pdfs f.stem f, imgs) : Dict × Dict).1 =
        dict_set pdfs f.stem f from rfl]
      rw [mem_dict_keys_set]
      constructor
      · rintro ((h1 | h1) | h1)
        · exact Or.inl h1
        · exact Or.inr (Or.inl ⟨h1.symm, hp⟩)
        · exact Or.inr (Or.inr h1)
      · rintro (h1 | (⟨h2, _⟩ | h2))
        · exact Or.inl (Or.inl h1)
        · exact Or.inl (Or.inr h2.symm)
        · exact Or.inr h2
    · by_cases hi : lower f.suffix ∈ image_suffixes
      · rw [show scan_files (f :: rest) (pdfs, imgs) =
            scan_files rest (pdfs, dict_set imgs f.stem f) from by
          simp [scan_files, hp, hi]]
        rw [ih (pdfs, dict_set imgs f.stem f) s, has_pdf_cons]
        constructor
        · rintro (h1 | h1)
          · exact Or.inl h1
          · exact Or.inr (Or.inr h1)
        · rintro (h1 | (⟨_, h3⟩ | h2))
          · exact Or.inl h1
          · exact absurd h3 hp
          · exact Or.inr h2
      · rw [show scan_files (f :: rest) (pdfs, imgs) =
            scan_files rest (pdfs, imgs) from by simp [scan_files, hp, hi]]
        rw [ih (pdfs, imgs) s, has_pdf_cons]
        constructor
        · rintro (h1 | h1)
          · exact Or.inl h1
          · exact Or.inr (Or.inr h1)
        · rintro (h1 | (⟨_, h3⟩ | h2))
          · exact Or.inl h1
          · exact absurd h3 hp
          · exact Or.inr h2

theorem scan_files_img_keys (files : List FileEntry) :
    ∀ (acc : Dict × Dict) (s : List ℕ),
    s ∈ dict_keys (scan_files files acc).2 ↔
      s ∈ dict_keys acc.2 ∨ has_image files s := by
  induction files with
  | nil =>
    intro acc s
    simp [scan_files, has_image]
  | cons f rest ih =>
    intro acc s
    obtain ⟨pdfs, imgs⟩ := acc
    by_cases hp : lower f.suffix = pdf_suffix
    · rw [show scan_files (f :: rest) (pdfs, imgs) =
          scan_files rest (dict_set pdfs f.stem f, imgs) from by
        simp [scan_files, hp]]
      rw [ih (dict_set pdfs f.stem f, imgs) s, has_image_cons]
      constructor
      · rintro (h1 | h1)
        · exact Or.inl h1
        · exact Or.inr (Or.inr h1)
      · rintro (h1 | (⟨_, h3⟩ | h2))
        · exact Or.inl h1
        · exact absurd hp (by rw [hp] at h3; exact fun _ =>
            pdf_suffix_not_image h3)
        · exact Or.inr h2
    · by_cases hi : lower f.suffix ∈ image_suffixes
      · rw [show scan_files (f :: rest) (pdfs, imgs) =
            scan_files rest (pdfs, dict_set imgs f.stem f) from by
          simp [scan_files, hp, hi]]
        rw [ih (pdfs, dict_set imgs f.stem f) s, has_image_cons]
        rw [show ((pdfs, dict_set imgs f.stem f) : Dict × Dict).2 =
          dict_set imgs f.stem f from rfl]
        rw [mem_dict_keys_set]
        constructor
        · rintro ((h1 | h1) | h1)
          · exact Or.inl h1
          · exact Or.inr (Or.inl ⟨h1.symm, hi⟩)
          · exact Or.inr (Or.inr h1)
        · rintro (h1 | (⟨h2, _⟩ | h2))
          · exact Or.inl (Or.inl h1)
          · exact Or.inl (Or.inr h2.symm)
          · exact Or.inr h2
      · rw [show scan_files (f :: rest) (pdfs, imgs) =
            scan_files rest (pdfs, imgs) from by simp [scan_files, hp, hi]]
        rw [ih (pdfs, imgs) s, has_image_cons]
        constructor
        · rintro (h1 | h1)
          · exact Or.inl h1
          · exact Or.inr (Or.inr h1)
        · rintro (h1 | (⟨_, h3⟩ | h2))
          · exact Or.inl h1
          · exact absurd h3 hi
          · exact Or.inr h2

end PdfMerger

namespace PdfMerger

theorem scan_files_pdf_nodup (files : List FileEntry) :
    ∀ acc : Dict × Dict, (dict_keys acc.1).Nodup →
      (dict_keys (scan_files files acc).1).Nodup := by
  induction files with
  | nil =>
    intro acc h
    simpa [scan_files] using h
  | cons f rest ih =>
    intro acc h
    obtain ⟨pdfs, imgs⟩ := acc
    by_cases hp : lower f.suffix = pdf_suffix
    · rw [show scan_files (f :: rest) (pdfs, imgs) =
          scan_files rest (dict_set pdfs f.stem f, imgs) from by
        simp [scan_files, hp]]
      exact ih _ (nodup_dict_keys_set pdfs f.stem f h)
    · by_cases hi : lower f.suffix ∈ image_suffixes
      · rw [show scan_files (f :: rest) (pdfs, imgs) =
            scan_files rest (pdfs, dict_set imgs f.stem f) from by
          simp [scan_files, hp, hi]]
        exact ih _ h
      · rw [show scan_files (f :: rest) (pdfs, imgs) =
            scan_files rest (pdfs, imgs) from by simp [scan_files, hp, hi]]
        exact ih _ h

theorem scan_files_pdf_entries (files : List FileEntry) :
    ∀ acc : Dict × Dict, (∀ kv ∈ acc.1, kv.2.stem = kv.1) →
      ∀ kv ∈ (scan_files files acc).1, kv.2.stem = kv.1 := by
  induction files with
  | nil =>
    intro acc h
    simpa [scan_files] using h
  | cons f rest ih =>
    intro acc h
    obtain ⟨pdfs, imgs⟩ := acc
    by_cases hp : lower f.suffix = pdf_suffix
    · rw [show scan_files (f :: rest) (pdfs, imgs) =
          scan_files rest (dict_set pdfs f.stem f, imgs) from by
        simp [scan_files, hp]]
      refine ih _ ?_
      intro kv hkv
      rcases dict_set_entry_cases pdfs f.stem f kv hkv with h1 | h1
      · exact h kv h1
      · subst h1
        rfl
    · by_cases hi : lower f.suffix ∈ image_suffixes
      · rw [show scan_files (f :: rest) (pdfs, imgs) =
            scan_files rest (pdfs, dict_set imgs f.stem f) from by
          simp [scan_files, hp, hi]]
        exact ih _ h
      · rw [show scan_files (f :: rest) (pdfs, imgs) =
            scan_files rest (pdfs, imgs) from by simp [scan_files, hp, hi]]
        exact ih _ h

theorem dict_keys_set_decomp (d : Dict) (k : List ℕ) (v : FileEntry) :
    dict_keys (dict_set d k v) = dict_keys d ∨
      dict_keys (dict_set d k v) = dict_keys d ++ [k] := by
  induction d with
  | nil => simp [dict_set, dict_keys]
  | cons kv d ih =>
    obtain ⟨k', v'⟩ := kv
    by_cases hk : k' = k
    · subst hk
      rw [show dict_set ((k', v') :: d) k' v = (k', v) :: d from by
        simp [dict_set]]
      exact Or.inl rfl
    · rw [show dict_set ((k', v') :: d) k v = (k', v') :: dict_set d k v from by
        simp [dict_set, hk]]
      rcases ih with h1 | h1
      · exact Or.inl (by
          rw [show dict_keys ((k', v') :: dict_set d k v) =
            k' :: dict_keys (dict_set d k v) from rfl, h1]
          rfl)
      · exact Or.inr (by
          rw [show dict_keys ((k', v') :: dict_set d k v) =
            k' :: dict_keys (dict_set d k v) from rfl, h1]
          rfl)

theorem scan_files_pdf_keys_decomp (files : List FileEntry) :
    ∀ acc : Dict × Dict, ∃ extra : List (List ℕ),
      dict_keys (scan_files files acc).1 = dict_keys acc.1 ++ extra ∧
      extra.Sublist (files.map FileEntry.stem) := by
  induction files with
  | nil =>
    intro acc
    exact ⟨[], by simp [scan_files], List.nil_sublist _⟩
  | cons f rest ih =>
    intro acc
    obtain ⟨pdfs, imgs⟩ := acc
    by_cases hp : lower f.suffix = pdf_suffix
    · rw [show scan_files (f :: rest) (pdfs, imgs) =
          scan_files rest (dict_set pdfs f.stem f, imgs) from by
        simp [scan_files, hp]]
      obtain ⟨extra, hdec, hsub⟩ := ih (dict_set pdfs f.stem f, imgs)
      rcases dict_keys_set_decomp pdfs f.stem f with h1 | h1
      · refine ⟨extra, ?_, ?_⟩
        · rw [hdec]
          rw [show dict_keys ((dict_set pdfs f.stem f, imgs) : Dict × Dict).1 =
            dict_keys (dict_set pdfs f.stem f) from rfl, h1]
        · exact hsub.trans (List.sublist_cons_self _ _)
      · refine ⟨f.stem :: extra, ?_, ?_⟩
        · rw [hdec]
          rw [show dict_keys ((dict_set pdfs f.stem f, imgs) : Dict × Dict).1 =
            dict_keys (dict_set pdfs f.stem f) from rfl, h1]
          simp
        · exact List.cons_sublist_cons.mpr hsub
    · by_cases hi : lower f.suffix ∈ image_suffixes
      · rw [show scan_files (f :: rest) (pdfs, imgs) =
            scan_files rest (pdfs, dict_set imgs f.stem f) from by
          simp [scan_files, hp, hi]]
        obtain ⟨extra, hdec, hsub⟩ := ih (pdfs, dict_set imgs f.stem f)
        exact ⟨extra, hdec, hsub.trans (List.sublist_cons_self _ _)⟩
      · rw [show scan_files (f :: rest) (pdfs, imgs) =
            scan_files rest (pdfs, imgs) from by simp [scan_files, hp, hi]]
        obtain ⟨extra, hdec, hsub⟩ := ih (pdfs, imgs)
        exact ⟨extra, hdec, hsub.trans (List.sublist_cons_self _ _)⟩

end PdfMerger

namespace PdfMerger

theorem map_stem_filterMap_pairs (imgs : Dict) :
    ∀ pdfs : Dict, (∀ kv ∈ pdfs, kv.2.stem = kv.1) →
    ((pdfs.filterMap fun kv =>
        match dict_get imgs kv.1 with
        | some imf => some (kv.2, imf)
        | none => none).map fun pr => pr.1.stem) =
      pdfs.filterMap fun kv =>
        match dict_get imgs kv.1 with
        | some _ => some kv.1
        | none => none := by
  intro pdfs
  induction pdfs with
  | nil => intro _; rfl
  | cons kv pdfs ih =>
    intro hstem
    have h0 := hstem kv (List.mem_cons_self _ _)
    have h' : ∀ kv' ∈ pdfs, kv'.2.stem = kv'.1 :=
      fun kv' h => hstem kv' (List.mem_cons_of_mem _ h)
    cases hget : dict_get imgs kv.1 with
    | none => simpa [List.filterMap_cons, hget] using ih h'
    | some imf => simp [List.filterMap_cons, hget, ih h', h0]

theorem output_stems_eq_reported (files : List FileEntry) :
    output_stems files = reported_stems files := by
  unfold output_stems get_file_pairs reported_stems
  exact map_stem_filterMap_pairs _ _
    (scan_files_pdf_entries files ([], []) (by simp))

theorem reported_sublist_keys (imgs : Dict) :
    ∀ pdfs : Dict,
    (pdfs.filterMap fun kv =>
        match dict_get imgs kv.1 with
        | some _ => some kv.1
        | none => none).Sublist (dict_keys pdfs) := by
  intro pdfs
  induction pdfs with
  | nil => simp
  | cons kv pdfs ih =>
    cases hget : dict_get imgs kv.1 with
    | none =>
      rw [List.filterMap_cons]
      rw [hget]
      exact ih.trans (List.sublist_cons_self _ _)
    | some imf =>
      rw [List.filterMap_cons]
      rw [hget]
      exact List.cons_sublist_cons.mpr ih

theorem mem_reported_iff (files : List FileEntry) (s : List ℕ) :
    s ∈ reported_stems files ↔ has_pdf files s ∧ has_image files s := by
  unfold reported_stems
  rw [List.mem_filterMap]
  constructor
  · rintro ⟨kv, hkv, hmatch⟩
    cases hget : dict_get (scan_files files ([], [])).2 kv.1 with
    | none =>
      rw [hget] at hmatch
      exact absurd hmatch (by simp)
    | some imf =>
      rw [hget] at hmatch
      have hs : kv.1 = s := by
        simpa using hmatch
      subst hs
      constructor
      · have hmemk : kv.1 ∈ dict_keys (scan_files files ([], [])).1 :=
          List.mem_map_of_mem Prod.fst hkv
        have h1 := (scan_files_pdf_keys files ([], []) kv.1).mp hmemk
        simpa [dict_keys] using h1
      · have hmemk : kv.1 ∈ dict_keys (scan_files files ([], [])).2 :=
          (dict_get_eq_some_iff_mem _ _).mp ⟨imf, hget⟩
        have h2 := (scan_files_img_keys files ([], []) kv.1).mp hmemk
        simpa [dict_keys] using h2
  · rintro ⟨hpdf, himg⟩
    have h1 : s ∈ dict_keys (scan_files files ([], [])).1 :=
      (scan_files_pdf_keys files ([], []) s).mpr (Or.inr hpdf)
    have h2 : s ∈ dict_keys (scan_files files ([], [])).2 :=
      (scan_files_img_keys files ([], []) s).mpr (Or.inr himg)
    obtain ⟨imf, hget⟩ := (dict_get_eq_some_iff_mem _ _).mpr h2
    obtain ⟨kv, hkv, hfst⟩ := List.mem_map.mp h1
    refine ⟨kv, hkv, ?_⟩
    rw [show kv.1 = s from hfst, hget]

theorem reported_nodup (files : List FileEntry) :
    (reported_stems files).Nodup := by
  have hkeys : (dict_keys (scan_files files ([], [])).1).Nodup :=
    scan_files_pdf_nodup files ([], []) (by simp [dict_keys])
  have hsub := reported_sublist_keys (scan_files files ([], [])).2
    (scan_files files ([], [])).1
  unfold reported_stems
  exact List.Nodup.sublist hsub hkeys

end PdfMerger

/-- C6 (corrected): the paired variant produces exactly one output file
`<stem>_merged.pdf` per stem that has both a `.pdf` entry and an
image-extension entry (the output-stem list is duplicate-free and a stem
appears in it iff it has both kinds); a stem with only one of the two
kinds is skipped and no output references it.  However the only per-stem
console reporting is `找到匹配文件对` for matched stems, so unmatched
stems are not individually reported (see the counterexample). -/
theorem C6_paired_pairing (files : List PdfMerger.FileEntry) :
    (∀ s : List ℕ, s ∈ PdfMerger.output_stems files ↔
      PdfMerger.has_pdf files s ∧ PdfMerger.has_image files s) ∧
    (PdfMerger.output_stems files).Nodup ∧
    (∀ s : List ℕ, s ∈ PdfMerger.reported_stems files ↔
      PdfMerger.has_pdf files s ∧ PdfMerger.has_image files s) := by
  refine ⟨?_, ?_, fun s => PdfMerger.mem_reported_iff files s⟩
  · intro s
    rw [PdfMerger.output_stems_eq_reported]
    exact PdfMerger.mem_reported_iff files s
  · rw [PdfMerger.output_stems_eq_reported]
    exact PdfMerger.reported_nodup files

/-- C6 counterexample: on the spec's own example `A.pdf, A.png, B.pdf,
C.jpg` exactly the pair `A` is produced, and the run's only per-stem
messages name `A`; the unmatched stems `B` and `C` are mentioned nowhere,
contradicting the claim that every one-kind stem "is reported as
unmatched". -/
theorem C6_counterexample :
    PdfMerger.output_stems
      [⟨[65], PdfMerger.pdf_suffix⟩, ⟨[65], [46, 112, 110, 103]⟩,
       ⟨[66], PdfMerger.pdf_suffix⟩, ⟨[67], [46, 106, 112, 103]⟩] = [[65]] ∧
    PdfMerger.reported_stems
      [⟨[65], PdfMerger.pdf_suffix⟩, ⟨[65], [46, 112, 110, 103]⟩,
       ⟨[66], PdfMerger.pdf_suffix⟩, ⟨[67], [46, 106, 112, 103]⟩] = [[65]] ∧
    [66] ∉ PdfMerger.reported_stems
      [⟨[65], PdfMerger.pdf_suffix⟩, ⟨[65], [46, 112, 110, 103]⟩,
       ⟨[66], PdfMerger.pdf_suffix⟩, ⟨[67], [46, 106, 112, 103]⟩] ∧
    [67] ∉ PdfMerger.reported_stems
      [⟨[65], PdfMerger.pdf_suffix⟩, ⟨[65], [46, 112, 110, 103]⟩,
       ⟨[66], PdfMerger.pdf_suffix⟩, ⟨[67], [46, 106, 112, 103]⟩] ∧
    PdfMerger.has_pdf
      [⟨[65], PdfMerger.pdf_suffix⟩, ⟨[65], [46, 112, 110, 103]⟩,
       ⟨[66], PdfMerger.pdf_suffix⟩, ⟨[67], [46, 106, 112, 103]⟩] [66] ∧
    ¬ PdfMerger.has_image
      [⟨[65], PdfMerger.pdf_suffix⟩, ⟨[65], [46, 112, 110, 103]⟩,
       ⟨[66], PdfMerger.pdf_suffix⟩, ⟨[67], [46, 106, 112, 103]⟩] [66] := by
  refine ⟨by decide, by decide, by decide, by decide, ?_, ?_⟩
  · exact ⟨⟨[66], PdfMerger.pdf_suffix⟩, by decide, rfl, by decide⟩
  · show ¬ ∃ f ∈ _, _
    decide

/-! ### Enumeration order of the three variants -/

namespace DualLayout

/-- `DualLayoutMerger.get_all_files` (src/dual_layout_merger.py:69-92):
keep entries whose lowercased suffix is a supported image format or
`.pdf`, then `all_files.sort(key=lambda x: x.name.lower())` — a sort keyed
by the case-insensitive filename. -/
def get_all_files (entries : List PdfMerger.FileEntry) : List PdfMerger.FileEntry :=
  List.insertionSort
    (fun a b => PdfMerger.lower (a.stem ++ a.suffix) ≤
      PdfMerger.lower (b.stem ++ b.suffix))
    (entries.filter fun f =>
      decide (PdfMerger.lower f.suffix ∈ PdfMerger.image_suffixes ∨
        PdfMerger.lower f.suffix = PdfMerger.pdf_suffix))

end DualLayout

namespace Grid

/-- The full filename of a grid source file; `glob("*.pdf")` only yields
names ending in `.pdf`. -/
def pdf_name (f : PdfFile) : List ℕ := f.stem ++ [46, 112, 100, 102]

/-- `sorted(pdf_files)` in `process_pdfs_to_merged_image`
(src/pdf_to_image_merger.py:256): `Path` objects in one directory compare
by their path string, which on POSIX is case-sensitive. -/
def sorted_pdf_files (files : List PdfFile) : List PdfFile :=
  List.insertionSort (fun a b => pdf_name a ≤ pdf_name b) files

end Grid

/-- C8 (corrected): only the dual-slot variant sorts by case-insensitive
filename.  Its enumeration is a permutation of the supported entries,
sorted by the lowercased name.  The grid variant sorts by the
case-sensitive path string, and the paired variant does not sort at all:
its pair order follows directory enumeration order, the pdf stems forming
a subsequence of the listing's stems. -/
theorem C8_processing_order (entries : List PdfMerger.FileEntry)
    (gfiles : List Grid.PdfFile) :
    List.Sorted (fun a b => PdfMerger.lower (a.stem ++ a.suffix) ≤
        PdfMerger.lower (b.stem ++ b.suffix))
      (DualLayout.get_all_files entries) ∧
    (DualLayout.get_all_files entries).Perm
      (entries.filter fun f =>
        decide (PdfMerger.lower f.suffix ∈ PdfMerger.image_suffixes ∨
          PdfMerger.lower f.suffix = PdfMerger.pdf_suffix)) ∧
    List.Sorted (fun a b => Grid.pdf_name a ≤ Grid.pdf_name b)
      (Grid.sorted_pdf_files gfiles) ∧
    (Grid.sorted_pdf_files gfiles).Perm gfiles ∧
    (PdfMerger.output_stems entries).Sublist
      (entries.map PdfMerger.FileEntry.stem) := by
  refine ⟨?_, ?_, ?_, ?_, ?_⟩
  · haveI : IsTotal PdfMerger.FileEntry
        (fun a b => PdfMerger.lower (a.stem ++ a.suffix) ≤
          PdfMerger.lower (b.stem ++ b.suffix)) :=
      ⟨fun a b => le_total _ _⟩
    haveI : IsTrans PdfMerger.FileEntry
        (fun a b => PdfMerger.lower (a.stem ++ a.suffix) ≤
          PdfMerger.lower (b.stem ++ b.suffix)) :=
      ⟨fun _ _ _ hab hbc => le_trans hab hbc⟩
    exact List.sorted_insertionSort _ _
  · exact List.perm_insertionSort _ _
  · haveI : IsTotal Grid.PdfFile
        (fun a b => Grid.pdf_name a ≤ Grid.pdf_name b) :=
      ⟨fun a b => le_total _ _⟩
    haveI : IsTrans Grid.PdfFile
        (fun a b => Grid.pdf_name a ≤ Grid.pdf_name b) :=
      ⟨fun _ _ _ hab hbc => le_trans hab hbc⟩
    exact List.sorted_insertionSort _ _
  · exact List.perm_insertionSort _ _
  · rw [PdfMerger.output_stems_eq_reported]
    have hsub1 := PdfMerger.reported_sublist_keys
      (PdfMerger.scan_files entries ([], [])).2
      (PdfMerger.scan_files entries ([], [])).1
    obtain ⟨extra, hdec, hsub2⟩ :=
      PdfMerger.scan_files_pdf_keys_decomp entries ([], [])
    have hdec' : PdfMerger.dict_keys
        (PdfMerger.scan_files entries ([], [])).1 = extra := by
      simpa [PdfMerger.dict_keys] using hdec
    unfold PdfMerger.reported_stems
    exact (hsub1.trans (hdec' ▸ List.Sublist.refl _)).trans hsub2

/-- C8 counterexample: with files `B.pdf` (stem code 66) and `a.pdf`
(stem code 97), the grid variant processes `B.pdf` first — case-sensitive
path order — while the case-insensitive keyed order starts with `a.pdf`;
and the paired variant yields pair orders `[B, A]` or `[A, B]` for the
same file set depending only on the enumeration order of the listing, so
its order is not keyed by filenames at all. -/
theorem C8_counterexample :
    (Grid.sorted_pdf_files [⟨[66], none⟩, ⟨[97], none⟩]).map Grid.PdfFile.stem =
      [[66], [97]] ∧
    (List.insertionSort
      (fun a b : Grid.PdfFile => PdfMerger.lower (Grid.pdf_name a) ≤
        PdfMerger.lower (Grid.pdf_name b))
      [⟨[66], none⟩, ⟨[97], none⟩]).map Grid.PdfFile.stem = [[97], [66]] ∧
    ([[66], [97]] : List (List ℕ)) ≠ [[97], [66]] ∧
    PdfMerger.output_stems
      [⟨[66], PdfMerger.pdf_suffix⟩, ⟨[66], [46, 112, 110, 103]⟩,
       ⟨[65], PdfMerger.pdf_suffix⟩, ⟨[65], [46, 112, 110, 103]⟩] =
      [[66], [65]] ∧
    PdfMerger.output_stems
      [⟨[65], PdfMerger.pdf_suffix⟩, ⟨[65], [46, 112, 110, 103]⟩,
       ⟨[66], PdfMerger.pdf_suffix⟩, ⟨[66], [46, 112, 110, 103]⟩] =
      [[65], [66]] ∧
    ([⟨[66], PdfMerger.pdf_suffix⟩, ⟨[66], [46, 112, 110, 103]⟩,
      ⟨[65], PdfMerger.pdf_suffix⟩, ⟨[65], [46, 112, 110, 103]⟩] :
      List PdfMerger.FileEntry).Perm
      [⟨[65], PdfMerger.pdf_suffix⟩, ⟨[65], [46, 112, 110, 103]⟩,
       ⟨[66], PdfMerger.pdf_suffix⟩, ⟨[66], [46, 112, 110, 103]⟩] := by
  refine ⟨by decide, by decide, by decide, by decide, by decide, by decide⟩
